import Mathlib

/-! # Fractal viewer: view-state machine and coordinate mapper

A shallow embedding of `src/fractal/viewer.c` (interactive viewer) and of the
part of `src/fractal/fractal_main.c` (batch driver) that follows option
parsing: view bounds, row loop, benchmark branch and image write.

Modelling conventions

* In the main model `double` is `ℚ`: every arithmetic step is exact.  This is
  the idealisation in which no operation rounds; statements proved in it about
  equality of plane points are statements of exact arithmetic and carry the
  hypotheses (non-zero zoom, positive sizes) under which no divisor is zero.
  Division by zero follows the field convention `x / 0 = 0` where C produces an
  infinity or a NaN.
* The section on binary64 arithmetic repeats the coordinate computations with
  every operation rounded as IEEE-754 prescribes, with infinities and NaN.  It
  decides what the code does where rounding or a zero divisor matters.
* `uint32_t` is modelled by `Nat`, with an explicit `% 2 ^ 32` where the C
  arithmetic can wrap.
* `int` is modelled by `Int` (pixel coordinates and flags); differences of
  pixel coordinates are assumed not to overflow.
* SDL calls that only perform output (window title, textures, file writes,
  `fprintf`) do not touch `ViewerState` and are left out; values that SDL or
  the clock hands to the program (cursor position, elapsed milliseconds) are
  explicit arguments.
* The assembly kernels are not among the sources.  The batch driver takes
  them as parameters; where a statement needs what a kernel computes, the
  kernel is modelled from its contract in the specification.
* The command line is modelled as the list of options that `getopt` returns,
  each with the value that `atoi`, `atof` or `sscanf` reads.
-/

namespace Fractal

/-! ## State -/

/-- The `ViewerState` struct of `viewer.c`. -/
structure ViewerState where
  win_w : Nat
  win_h : Nat
  center_x : ℚ
  center_y : ℚ
  zoom : ℚ
  max_iter : Nat
  julia_mode : Int
  jr : ℚ
  ji : ℚ
  needs_render : Int
  progressive_phase : Int
  last_render_ms : ℚ
  dragging : Int
  drag_start_x : Int
  drag_start_y : Int
  drag_start_cx : ℚ
  drag_start_cy : ℚ
deriving DecidableEq, Repr

/-- The four outputs of `compute_view` (written through pointers in C). -/
structure ViewBounds where
  x_min : ℚ
  y_min : ℚ
  x_step : ℚ
  y_step : ℚ
deriving DecidableEq, Repr

/-! ## Helpers -/

/-- `compute_view` of `viewer.c`: plane origin and per-pixel steps for a raster
of `rw × rh` pixels, in exact arithmetic (`compute_view_f64` is the rounded
computation). -/
def compute_view (s : ViewerState) (rw rh : Nat) : ViewBounds :=
  let aspect : ℚ := (rw : ℚ) / (rh : ℚ)
  let half_h : ℚ := 2 / s.zoom
  let half_w : ℚ := half_h * aspect
  { x_min := s.center_x - half_w
    y_min := s.center_y - half_h
    x_step := (2 * half_w) / (rw : ℚ)
    y_step := (2 * half_h) / (rh : ℚ) }

/-- `screen_to_complex` of `viewer.c`: the plane point `(re, im)` of window
pixel `(sx, sy)`, in exact arithmetic (`screen_to_complex_f64` is the rounded
computation, which is NaN at zoom `0.0`). -/
def screen_to_complex (s : ViewerState) (sx sy : Int) : ℚ × ℚ :=
  let aspect : ℚ := (s.win_w : ℚ) / (s.win_h : ℚ)
  let half_h : ℚ := 2 / s.zoom
  let half_w : ℚ := half_h * aspect
  (s.center_x - half_w + (2 * half_w) * (sx : ℚ) / (s.win_w : ℚ),
   s.center_y - half_h + (2 * half_h) * (sy : ℚ) / (s.win_h : ℚ))

/-! ## Event handlers -/

/-- `mark_dirty` of `viewer.c`. -/
def mark_dirty (s : ViewerState) : ViewerState :=
  { s with needs_render := 1, progressive_phase := 0 }

/-! SDL2 key codes and mouse buttons used by the handlers (values of
`SDL_keycode.h` and `SDL_mouse.h`). -/

def SDLK_ESCAPE : Int := 27
def SDLK_q : Int := 113
def SDLK_SPACE : Int := 32
def SDLK_EQUALS : Int := 61
def SDLK_PLUS : Int := 43
def SDLK_KP_PLUS : Int := 1073741911
def SDLK_MINUS : Int := 45
def SDLK_KP_MINUS : Int := 1073741910
def SDLK_r : Int := 114
def SDLK_s : Int := 115
def SDL_BUTTON_LEFT : Nat := 1
def SDL_BUTTON_RIGHT : Nat := 3

/-- `handle_key` of `viewer.c`.  The `running` flag, written through a pointer
in C, is threaded through as the second component.  The `SDLK_s` case only
writes an image file and leaves both components as they are. -/
def handle_key (s : ViewerState) (key : Int) (running : Int) : ViewerState × Int :=
  if key = SDLK_ESCAPE ∨ key = SDLK_q then
    (s, 0)
  else if key = SDLK_SPACE then
    (mark_dirty { s with julia_mode := 0, center_x := -1 / 2, center_y := 0, zoom := 1 }, running)
  else if key = SDLK_EQUALS ∨ key = SDLK_PLUS ∨ key = SDLK_KP_PLUS then
    let m := (s.max_iter * 2) % 2 ^ 32
    let m := if m > 65536 then 65536 else m
    (mark_dirty { s with max_iter := m }, running)
  else if key = SDLK_MINUS ∨ key = SDLK_KP_MINUS then
    let m := s.max_iter / 2
    let m := if m < 16 then 16 else m
    (mark_dirty { s with max_iter := m }, running)
  else if key = SDLK_r then
    (mark_dirty { s with
        center_x := if s.julia_mode ≠ 0 then 0 else -1 / 2
        center_y := 0
        zoom := 1
        max_iter := 256 }, running)
  else if key = SDLK_s then
    (s, running)
  else
    (s, running)

/-- `handle_mousedown` of `viewer.c`, for a button event at pixel `(x, y)`. -/
def handle_mousedown (s : ViewerState) (button : Nat) (x y : Int) : ViewerState :=
  if button = SDL_BUTTON_LEFT then
    { s with
        dragging := 1
        drag_start_x := x
        drag_start_y := y
        drag_start_cx := s.center_x
        drag_start_cy := s.center_y }
  else if button = SDL_BUTTON_RIGHT ∧ s.julia_mode = 0 then
    let p := screen_to_complex s x y
    mark_dirty { s with
        jr := p.1
        ji := p.2
        julia_mode := 1
        center_x := 0
        center_y := 0
        zoom := 1 }
  else
    s

/-- `handle_mouseup` of `viewer.c`. -/
def handle_mouseup (s : ViewerState) (button : Nat) : ViewerState :=
  if button = SDL_BUTTON_LEFT then { s with dragging := 0 } else s

/-- `handle_mousemotion` of `viewer.c`, for a motion event at pixel `(x, y)`, in
exact arithmetic (`handle_mousemotion_f64` is the rounded computation). -/
def handle_mousemotion (s : ViewerState) (x y : Int) : ViewerState :=
  if s.dragging = 0 then s
  else
    let aspect : ℚ := (s.win_w : ℚ) / (s.win_h : ℚ)
    let half_h : ℚ := 2 / s.zoom
    let half_w : ℚ := half_h * aspect
    let dx : ℚ := ((x - s.drag_start_x : Int) : ℚ) / (s.win_w : ℚ) * 2 * half_w
    let dy : ℚ := ((y - s.drag_start_y : Int) : ℚ) / (s.win_h : ℚ) * 2 * half_h
    mark_dirty { s with
        center_x := s.drag_start_cx - dx
        center_y := s.drag_start_cy - dy }

/-- `handle_wheel` of `viewer.c`, in exact arithmetic (`handle_wheel_f64` is the
rounded computation; at zoom `0.0` it stores a NaN center).  `ev_y` is the
vertical scroll amount of the event and `(mx, my)` the cursor position returned
by `SDL_GetMouseState`. -/
def handle_wheel (s : ViewerState) (ev_y : Int) (mx my : Int) : ViewerState :=
  let c := screen_to_complex s mx my
  let factor : ℚ := if ev_y > 0 then 13 / 10 else 1 / (13 / 10)
  let z : ℚ := s.zoom * factor
  let z : ℚ := if z < 1 / 10 then 1 / 10 else z
  let z : ℚ := if z > 100000000000000 then 100000000000000 else z
  let aspect : ℚ := (s.win_w : ℚ) / (s.win_h : ℚ)
  let new_half_h : ℚ := 2 / z
  let new_half_w : ℚ := new_half_h * aspect
  let fx : ℚ := (mx : ℚ) / (s.win_w : ℚ)
  let fy : ℚ := (my : ℚ) / (s.win_h : ℚ)
  mark_dirty { s with
      zoom := z
      center_x := c.1 - new_half_w * (2 * fx - 1)
      center_y := c.2 - new_half_h * (2 * fy - 1) }

/-! ## Main loop -/

/-- The two render targets of the viewer loop (`tex_coarse`, `tex_full`). -/
inductive Texture where
  | tex_coarse
  | tex_full
deriving DecidableEq, Repr

/-- One call of `render_fractal`: the target it fills and the raster size. -/
structure RenderCall where
  target : Texture
  rw : Nat
  rh : Nat
deriving DecidableEq, Repr

/-- The render part of one iteration of the loop in `main`
(`if (state.needs_render) { ... }`).  `active_tex` is the texture that will be
presented, `ms` the duration the clock reports for the render.  The third
component lists the `render_fractal` calls made, in order. -/
def render_step (s : ViewerState) (active_tex : Texture) (ms : ℚ) :
    ViewerState × Texture × List RenderCall :=
  if s.needs_render ≠ 0 then
    if s.progressive_phase = 0 then
      ({ s with progressive_phase := 1, last_render_ms := ms },
       Texture.tex_coarse,
       [{ target := Texture.tex_coarse, rw := s.win_w / 4, rh := s.win_h / 4 }])
    else
      ({ s with needs_render := 0, last_render_ms := ms },
       Texture.tex_full,
       [{ target := Texture.tex_full, rw := s.win_w, rh := s.win_h }])
  else
    (s, active_tex, [])

/-- The initial `ViewerState` of `main` in `viewer.c`; the fields the
initialiser does not name are zero. -/
def initial_state : ViewerState :=
  { win_w := 800, win_h := 600
    center_x := -1 / 2, center_y := 0
    zoom := 1, max_iter := 256
    julia_mode := 0, jr := 0, ji := 0
    needs_render := 1, progressive_phase := 0
    last_render_ms := 0, dragging := 0
    drag_start_x := 0, drag_start_y := 0
    drag_start_cx := 0, drag_start_cy := 0 }

/-- Input events as the loop in `main` distinguishes them by `ev.type`.  A wheel
event also carries the cursor position that `handle_wheel` obtains from
`SDL_GetMouseState`; `other` stands for every event type the loop ignores. -/
inductive SDL_Event where
  | quit
  | keydown (sym : Int)
  | mousebuttondown (button : Nat) (x y : Int)
  | mousebuttonup (button : Nat) (x y : Int)
  | mousemotion (x y : Int)
  | mousewheel (y : Int) (mx my : Int)
  | other
deriving DecidableEq, Repr

/-- The `switch (ev.type)` of the event loop in `main`, acting on the state and
the `running` flag. -/
def dispatch (st : ViewerState × Int) (ev : SDL_Event) : ViewerState × Int :=
  match ev with
  | SDL_Event.quit => (st.1, 0)
  | SDL_Event.keydown sym => handle_key st.1 sym st.2
  | SDL_Event.mousebuttondown button x y => (handle_mousedown st.1 button x y, st.2)
  | SDL_Event.mousebuttonup button _ _ => (handle_mouseup st.1 button, st.2)
  | SDL_Event.mousemotion x y => (handle_mousemotion st.1 x y, st.2)
  | SDL_Event.mousewheel y mx my => (handle_wheel st.1 y mx my, st.2)
  | SDL_Event.other => st

/-- The inner `while (SDL_PollEvent(&ev))` loop of `main`: the pending events
are handled in order. -/
def poll_events (st : ViewerState × Int) (evs : List SDL_Event) : ViewerState × Int :=
  evs.foldl dispatch st

/-! ## Batch driver -/

/-- The `Config` struct of `fractal_main.c`. -/
structure Config where
  width : Nat
  height : Nat
  center_x : ℚ
  center_y : ℚ
  zoom : ℚ
  max_iter : Nat
  julia_mode : Int
  jr : ℚ
  ji : ℚ
  output : String
  benchmark : Int
deriving DecidableEq, Repr

/-- The view bounds that `main` of `fractal_main.c` computes from the parsed
configuration (the block headed `Compute view bounds`), in exact arithmetic
(`main_view_bounds_f64` is the rounded computation). -/
def main_view_bounds (cfg : Config) : ViewBounds :=
  let aspect : ℚ := (cfg.width : ℚ) / (cfg.height : ℚ)
  let half_h : ℚ := 2 / cfg.zoom
  let half_w : ℚ := half_h * aspect
  { x_min := cfg.center_x - half_w
    y_min := cfg.center_y - half_h
    x_step := (2 * half_w) / (cfg.width : ℚ)
    y_step := (2 * half_h) / (cfg.height : ℚ) }

/-- The `struct timespec` that `clock_gettime` fills. -/
structure Timespec where
  tv_sec : Int
  tv_nsec : Int
deriving DecidableEq, Repr

/-- `timespec_diff_ms` of `fractal_main.c`. -/
def timespec_diff_ms (a b : Timespec) : ℚ :=
  ((b.tv_sec - a.tv_sec : Int) : ℚ) * 1000 + ((b.tv_nsec - a.tv_nsec : Int) : ℚ) / 1000000

/-- The four assembly row kernels that `fractal_main.c` declares `extern`, taken
as parameters.  A kernel receives `width`, `x_min`, `x_step`, `y`, for Julia
rows also `jr` and `ji`, and `max_iter`; the function it returns gives, for
each column, the count it stores in `iter_out[column]`. -/
structure Kernels where
  mandelbrot_row_scalar : Nat → ℚ → ℚ → ℚ → Nat → Nat → Nat
  mandelbrot_row_neon : Nat → ℚ → ℚ → ℚ → Nat → Nat → Nat
  julia_row_scalar : Nat → ℚ → ℚ → ℚ → ℚ → ℚ → Nat → Nat → Nat
  julia_row_neon : Nat → ℚ → ℚ → ℚ → ℚ → ℚ → Nat → Nat → Nat

/-- A row kernel call on the buffer `iters`: the `width` entries that start at
offset `off` are overwritten with the counts of the row, the rest is kept. -/
def write_row (iters : Nat → Nat) (off width : Nat) (row : Nat → Nat) : Nat → Nat :=
  fun i => if off ≤ i ∧ i < off + width then row (i - off) else iters i

/-- The kernel call in the loop body of `render_rows`: the kernel is chosen by
`cfg.julia_mode` and `use_neon` and run on the row with plane coordinate `y`. -/
def row_counts (K : Kernels) (cfg : Config) (x_min x_step y : ℚ) (use_neon : Int) :
    Nat → Nat :=
  if cfg.julia_mode ≠ 0 then
    (if use_neon ≠ 0 then
      K.julia_row_neon cfg.width x_min x_step y cfg.jr cfg.ji cfg.max_iter
    else
      K.julia_row_scalar cfg.width x_min x_step y cfg.jr cfg.ji cfg.max_iter)
  else
    (if use_neon ≠ 0 then
      K.mandelbrot_row_neon cfg.width x_min x_step y cfg.max_iter
    else
      K.mandelbrot_row_scalar cfg.width x_min x_step y cfg.max_iter)

/-- `render_rows` of `fractal_main.c`.  The buffer `iters` is a map from
offsets to counts; row `row` is written at offset `row * cfg.width`. -/
def render_rows (K : Kernels) (iters : Nat → Nat) (cfg : Config)
    (x_min x_step y_min y_step : ℚ) (use_neon : Int) : Nat → Nat :=
  (List.range cfg.height).foldl
    (fun (buf : Nat → Nat) (row : Nat) =>
      write_row buf (row * cfg.width) cfg.width
        (row_counts K cfg x_min x_step (y_min + (row : ℚ) * y_step) use_neon))
    iters

/-- What the batch driver prints on standard output, one constructor per
`printf` call, holding the values that are formatted. -/
inductive Printed where
  | banner (mode : String) (width height max_iter : Nat) (zoom : ℚ)
  | scalar_time (ms : ℚ)
  | neon_time (ms : ℚ)
  | speedup (x : ℚ)
  | wrote (path : String) (width height : Nat)
deriving DecidableEq, Repr

/-- The image file that `write_ppm` produces: path, header fields and the RGB
bytes. -/
structure PpmFile where
  path : String
  width : Nat
  height : Nat
  rgb : List Nat
deriving DecidableEq, Repr

/-- The observable result of a run of the batch driver. -/
structure RunResult where
  printed : List Printed
  file : Option PpmFile
  exit_status : Int
deriving DecidableEq, Repr

/-- What the environment hands to a run of the batch driver: the three clock
readings of the benchmark branch, the content of the freshly allocated
iteration buffer, and whether `malloc` and `fopen` succeed. -/
structure BatchEnv where
  t0 : Timespec
  t1 : Timespec
  t2 : Timespec
  iters0 : Nat → Nat
  malloc_ok : Bool
  fopen_ok : Bool

/-- The part of `main` of `fractal_main.c` that follows option parsing: view
bounds, the benchmark or the default render, colour mapping and the image
write.  `colormap_apply` is the assembly colour kernel, taken as a parameter
that maps the first `count` counts and `max_iter` to the RGB bytes; `count` is
the pixel count truncated to 32 bits. -/
def main_render (K : Kernels) (colormap_apply : List Nat → Nat → List Nat)
    (env : BatchEnv) (cfg : Config) : RunResult :=
  let v := main_view_bounds cfg
  let npixels : Nat := cfg.width * cfg.height
  if env.malloc_ok = false then
    { printed := [], file := none, exit_status := 1 }
  else
    let bench : (Nat → Nat) × List Printed :=
      if cfg.benchmark ≠ 0 then
        let iters1 := render_rows K env.iters0 cfg v.x_min v.x_step v.y_min v.y_step 0
        let iters2 := render_rows K iters1 cfg v.x_min v.x_step v.y_min v.y_step 1
        let scalar_ms := timespec_diff_ms env.t0 env.t1
        let neon_ms := timespec_diff_ms env.t1 env.t2
        (iters2,
         [Printed.banner (if cfg.julia_mode ≠ 0 then "Julia" else "Mandelbrot")
            cfg.width cfg.height cfg.max_iter cfg.zoom,
          Printed.scalar_time scalar_ms,
          Printed.neon_time neon_ms,
          Printed.speedup (scalar_ms / neon_ms)])
      else
        (render_rows K env.iters0 cfg v.x_min v.x_step v.y_min v.y_step 1, [])
    let count : Nat := npixels % 2 ^ 32
    let rgb := colormap_apply ((List.range count).map bench.1) cfg.max_iter
    if env.fopen_ok = false then
      { printed := bench.2, file := none, exit_status := 1 }
    else
      { printed := bench.2 ++ [Printed.wrote cfg.output cfg.width cfg.height]
        file := some { path := cfg.output, width := cfg.width, height := cfg.height, rgb := rgb }
        exit_status := 0 }

/-! ## Command line of the viewer -/

/-- One option as `getopt` hands it to `parse_args` of `viewer.c`, with the
value that `atoi`, `atof` or `sscanf` reads from its argument.  `j none` is an
argument that `sscanf` does not read as two numbers; `unknown` is anything
`getopt` reports as an error. -/
inductive CliOption where
  | w (v : Int)
  | h (v : Int)
  | j (parsed : Option (ℚ × ℚ))
  | i (v : Int)
  | x (v : ℚ)
  | y (v : ℚ)
  | z (v : ℚ)
  | unknown
deriving DecidableEq, Repr

/-- The `while ((opt = getopt(...)) != -1)` loop of `parse_args`, with the
local flag `center_x_set` as third argument.  `none` is `exit(1)`.  The cast
`(uint32_t)atoi(optarg)` reduces the value modulo `2 ^ 32`. -/
def parse_args_loop : List CliOption → ViewerState → Int → Option (ViewerState × Int)
  | [], s, center_x_set => some (s, center_x_set)
  | CliOption.w v :: rest, s, center_x_set =>
    parse_args_loop rest { s with win_w := (v % 2 ^ 32).toNat } center_x_set
  | CliOption.h v :: rest, s, center_x_set =>
    parse_args_loop rest { s with win_h := (v % 2 ^ 32).toNat } center_x_set
  | CliOption.j (some p) :: rest, s, center_x_set =>
    parse_args_loop rest { s with julia_mode := 1, jr := p.1, ji := p.2 } center_x_set
  | CliOption.j none :: _, _, _ => none
  | CliOption.i v :: rest, s, center_x_set =>
    parse_args_loop rest { s with max_iter := (v % 2 ^ 32).toNat } center_x_set
  | CliOption.x v :: rest, s, _ =>
    parse_args_loop rest { s with center_x := v } 1
  | CliOption.y v :: rest, s, center_x_set =>
    parse_args_loop rest { s with center_y := v } center_x_set
  | CliOption.z v :: rest, s, center_x_set =>
    parse_args_loop rest { s with zoom := v } center_x_set
  | CliOption.unknown :: _, _, _ => none

/-- `parse_args` of `viewer.c` on the option list of the command line; `none`
is `exit(1)`. -/
def parse_args (opts : List CliOption) (s : ViewerState) : Option ViewerState :=
  match parse_args_loop opts s 0 with
  | none => none
  | some (s1, center_x_set) =>
    some (if s1.julia_mode ≠ 0 ∧ center_x_set = 0 then { s1 with center_x := 0 } else s1)

/-! ## IEEE binary64 model

The definitions above compute in exact arithmetic.  The definitions of this
section repeat the `double` computations of the sources with every operation
rounded on its own as IEEE-754 binary64 does (round to nearest, ties to even,
no fused multiply-add), with infinities and NaN.  They decide the statements
for which rounding or a zero divisor matters. -/

/-- The number of binary digits of `n`, counted by halving at most `fuel`
times. -/
def bit_length_aux : Nat → Nat → Nat
  | 0, _ => 0
  | fuel + 1, n => if n = 0 then 0 else bit_length_aux fuel (n / 2) + 1

/-- The number of binary digits of `n`. -/
def bit_length (n : Nat) : Nat :=
  bit_length_aux n n

/-- The integer `k` with `2 ^ k ≤ n / d < 2 ^ (k + 1)`, for positive `n` and
`d`. -/
def floor_log2 (n d : Nat) : Int :=
  let k : Int := (bit_length n : Int) - (bit_length d : Int)
  if k ≥ 0 then (if n < d * 2 ^ k.toNat then k - 1 else k)
  else (if n * 2 ^ (-k).toNat < d then k - 1 else k)

/-- The integer nearest to `a / b`, the even one of the two on a tie. -/
def round_half_even (a b : Nat) : Nat :=
  let m := a / b
  let r := a % b
  if 2 * r < b then m else if b < 2 * r then m + 1 else m + m % 2

/-- A binary64 value: a finite number given by its exact value, an infinity
with its sign, or NaN.  The two zeros are not distinguished. -/
inductive F64 where
  | fin (q : ℚ)
  | inf (neg : Bool)
  | nan
deriving DecidableEq, Repr

namespace F64

/-- Rounding of a rational to binary64: to the nearest multiple of `2 ^ e`,
ties to even, where `e` leaves a significand of 53 bits and is at least
`-1074`; a result of magnitude `2 ^ 1024` or more is an infinity. -/
def round (q : ℚ) : F64 :=
  if q = 0 then fin 0
  else
    let n : Nat := q.num.natAbs
    let d : Nat := q.den
    let e : Int := max (floor_log2 n d - 52) (-1074)
    let m : Nat :=
      if e ≥ 0 then round_half_even n (d * 2 ^ e.toNat)
      else round_half_even (n * 2 ^ (-e).toNat) d
    let v : ℚ :=
      if e ≥ 0 then ((m * 2 ^ e.toNat : Nat) : ℚ)
      else (m : ℚ) / ((2 ^ (-e).toNat : Nat) : ℚ)
    if v ≥ ((2 ^ 1024 : Nat) : ℚ) then inf (decide (q < 0))
    else fin (if q < 0 then -v else v)

/-- Unary minus. -/
def neg : F64 → F64
  | fin q => fin (-q)
  | inf s => inf (!s)
  | nan => nan

/-- Addition. -/
def add : F64 → F64 → F64
  | fin a, fin b => round (a + b)
  | fin _, inf s => inf s
  | inf s, fin _ => inf s
  | inf s, inf t => if s = t then inf s else nan
  | _, _ => nan

/-- Subtraction. -/
def sub (a b : F64) : F64 :=
  add a (neg b)

/-- Multiplication. -/
def mul : F64 → F64 → F64
  | fin a, fin b => round (a * b)
  | fin a, inf s => if a = 0 then nan else inf (xor (decide (a < 0)) s)
  | inf s, fin b => if b = 0 then nan else inf (xor s (decide (b < 0)))
  | inf s, inf t => inf (xor s t)
  | _, _ => nan

/-- Division. -/
def div : F64 → F64 → F64
  | fin a, fin b =>
    if b = 0 then (if a = 0 then nan else inf (decide (a < 0)))
    else round (a / b)
  | fin _, inf _ => fin 0
  | inf s, fin b => inf (xor s (decide (b < 0)))
  | inf _, inf _ => nan
  | _, _ => nan

/-- The comparison `<` of C: false when an operand is NaN. -/
def lt : F64 → F64 → Bool
  | fin a, fin b => decide (a < b)
  | fin _, inf s => !s
  | inf s, fin _ => s
  | inf s, inf t => s && !t
  | _, _ => false

/-- The comparison `==` of C: false when an operand is NaN. -/
def eq : F64 → F64 → Bool
  | fin a, fin b => decide (a = b)
  | inf s, inf t => decide (s = t)
  | _, _ => false

/-- Conversion of an unsigned integer to `double`. -/
def of_nat (n : Nat) : F64 :=
  round (n : ℚ)

/-- Conversion of an `int` to `double`. -/
def of_int (z : Int) : F64 :=
  round (z : ℚ)

end F64

/-- The `ViewerState` struct of `viewer.c` with its `double` fields as binary64
values. -/
structure ViewerState64 where
  win_w : Nat
  win_h : Nat
  center_x : F64
  center_y : F64
  zoom : F64
  max_iter : Nat
  julia_mode : Int
  jr : F64
  ji : F64
  needs_render : Int
  progressive_phase : Int
  last_render_ms : F64
  dragging : Int
  drag_start_x : Int
  drag_start_y : Int
  drag_start_cx : F64
  drag_start_cy : F64
deriving DecidableEq, Repr

/-- The four outputs of `compute_view` as binary64 values. -/
structure ViewBounds64 where
  x_min : F64
  y_min : F64
  x_step : F64
  y_step : F64
deriving DecidableEq, Repr

/-- `compute_view` of `viewer.c` in binary64 arithmetic. -/
def compute_view_f64 (s : ViewerState64) (rw rh : Nat) : ViewBounds64 :=
  let aspect : F64 := F64.div (F64.of_nat rw) (F64.of_nat rh)
  let half_h : F64 := F64.div (F64.of_nat 2) s.zoom
  let half_w : F64 := F64.mul half_h aspect
  { x_min := F64.sub s.center_x half_w
    y_min := F64.sub s.center_y half_h
    x_step := F64.div (F64.mul (F64.of_nat 2) half_w) (F64.of_nat rw)
    y_step := F64.div (F64.mul (F64.of_nat 2) half_h) (F64.of_nat rh) }

/-- `screen_to_complex` of `viewer.c` in binary64 arithmetic. -/
def screen_to_complex_f64 (s : ViewerState64) (sx sy : Int) : F64 × F64 :=
  let aspect : F64 := F64.div (F64.of_nat s.win_w) (F64.of_nat s.win_h)
  let half_h : F64 := F64.div (F64.of_nat 2) s.zoom
  let half_w : F64 := F64.mul half_h aspect
  (F64.add (F64.sub s.center_x half_w)
      (F64.div (F64.mul (F64.mul (F64.of_nat 2) half_w) (F64.of_int sx)) (F64.of_nat s.win_w)),
   F64.add (F64.sub s.center_y half_h)
      (F64.div (F64.mul (F64.mul (F64.of_nat 2) half_h) (F64.of_int sy)) (F64.of_nat s.win_h)))

/-- `mark_dirty` of `viewer.c` on the binary64 state. -/
def mark_dirty_f64 (s : ViewerState64) : ViewerState64 :=
  { s with needs_render := 1, progressive_phase := 0 }

/-- `handle_mousemotion` of `viewer.c` in binary64 arithmetic. -/
def handle_mousemotion_f64 (s : ViewerState64) (x y : Int) : ViewerState64 :=
  if s.dragging = 0 then s
  else
    let aspect : F64 := F64.div (F64.of_nat s.win_w) (F64.of_nat s.win_h)
    let half_h : F64 := F64.div (F64.of_nat 2) s.zoom
    let half_w : F64 := F64.mul half_h aspect
    let dx : F64 :=
      F64.mul (F64.mul (F64.div (F64.of_int (x - s.drag_start_x)) (F64.of_nat s.win_w))
        (F64.of_nat 2)) half_w
    let dy : F64 :=
      F64.mul (F64.mul (F64.div (F64.of_int (y - s.drag_start_y)) (F64.of_nat s.win_h))
        (F64.of_nat 2)) half_h
    mark_dirty_f64 { s with
        center_x := F64.sub s.drag_start_cx dx
        center_y := F64.sub s.drag_start_cy dy }

/-- `handle_wheel` of `viewer.c` in binary64 arithmetic.  The literals `1.3`
and `0.1` are the doubles nearest to `13/10` and `1/10`. -/
def handle_wheel_f64 (s : ViewerState64) (ev_y : Int) (mx my : Int) : ViewerState64 :=
  let c := screen_to_complex_f64 s mx my
  let factor : F64 :=
    if ev_y > 0 then F64.round (13 / 10) else F64.div (F64.of_nat 1) (F64.round (13 / 10))
  let z : F64 := F64.mul s.zoom factor
  let z : F64 := if F64.lt z (F64.round (1 / 10)) = true then F64.round (1 / 10) else z
  let z : F64 :=
    if F64.lt (F64.of_nat 100000000000000) z = true then F64.of_nat 100000000000000 else z
  let aspect : F64 := F64.div (F64.of_nat s.win_w) (F64.of_nat s.win_h)
  let new_half_h : F64 := F64.div (F64.of_nat 2) z
  let new_half_w : F64 := F64.mul new_half_h aspect
  let fx : F64 := F64.div (F64.of_int mx) (F64.of_nat s.win_w)
  let fy : F64 := F64.div (F64.of_int my) (F64.of_nat s.win_h)
  mark_dirty_f64 { s with
      zoom := z
      center_x := F64.sub c.1 (F64.mul new_half_w (F64.sub (F64.mul (F64.of_nat 2) fx)
        (F64.of_nat 1)))
      center_y := F64.sub c.2 (F64.mul new_half_h (F64.sub (F64.mul (F64.of_nat 2) fy)
        (F64.of_nat 1))) }

/-- The initial `ViewerState` of `main` in `viewer.c` as binary64 values. -/
def initial_state_f64 : ViewerState64 :=
  { win_w := 800, win_h := 600
    center_x := F64.fin (-1 / 2), center_y := F64.fin 0
    zoom := F64.fin 1, max_iter := 256
    julia_mode := 0, jr := F64.fin 0, ji := F64.fin 0
    needs_render := 1, progressive_phase := 0
    last_render_ms := F64.fin 0, dragging := 0
    drag_start_x := 0, drag_start_y := 0
    drag_start_cx := F64.fin 0, drag_start_cy := F64.fin 0 }

/-- The view bounds that `main` of `fractal_main.c` computes, in binary64
arithmetic, from the raster size, the center and the zoom of the
configuration. -/
def main_view_bounds_f64 (width height : Nat) (center_x center_y zoom : F64) : ViewBounds64 :=
  let aspect : F64 := F64.div (F64.of_nat width) (F64.of_nat height)
  let half_h : F64 := F64.div (F64.of_nat 2) zoom
  let half_w : F64 := F64.mul half_h aspect
  { x_min := F64.sub center_x half_w
    y_min := F64.sub center_y half_h
    x_step := F64.div (F64.mul (F64.of_nat 2) half_w) (F64.of_nat width)
    y_step := F64.div (F64.mul (F64.of_nat 2) half_h) (F64.of_nat height) }

/-- The default view with zoom `0.0`, as the command line `-z 0` leaves it. -/
def zero_zoom_state_f64 : ViewerState64 :=
  { initial_state_f64 with zoom := F64.fin 0 }

/-- The binary64 counterpart of `settled_state`: a drag in progress that
started at pixel `(10, 10)` with the center at `(-0.5, 0)`. -/
def settled_state_f64 : ViewerState64 :=
  { initial_state_f64 with
      needs_render := 0
      progressive_phase := 1
      dragging := 1
      drag_start_x := 10
      drag_start_y := 10
      drag_start_cx := F64.fin (-1 / 2)
      drag_start_cy := F64.fin 0 }

/-! ## Specification vocabulary -/

/-- The fields that make up the View: center, zoom, iteration bound, mode and
Julia parameter. -/
def view_fields (s : ViewerState) : ℚ × ℚ × ℚ × Nat × Int × ℚ × ℚ :=
  (s.center_x, s.center_y, s.zoom, s.max_iter, s.julia_mode, s.jr, s.ji)

/-- The state `Dirty(Coarse)`: a render is pending and the next one is coarse. -/
def dirty_coarse (s : ViewerState) : Prop :=
  s.needs_render = 1 ∧ s.progressive_phase = 0

instance (s : ViewerState) : Decidable (dirty_coarse s) :=
  inferInstanceAs (Decidable (_ ∧ _))

/-- The View bounds: `16 ≤ max_iter ≤ 65536` and `0.1 ≤ zoom ≤ 1e14`. -/
def bounds_ok (s : ViewerState) : Prop :=
  16 ≤ s.max_iter ∧ s.max_iter ≤ 65536 ∧ (1 / 10 : ℚ) ≤ s.zoom ∧ s.zoom ≤ 100000000000000

instance (s : ViewerState) : Decidable (bounds_ok s) :=
  inferInstanceAs (Decidable (_ ∧ _ ∧ _ ∧ _))

/-- A sample state: clean, in the full phase, with a drag in progress that
started at pixel `(10, 10)` with the center at `(-0.5, 0)`. -/
def settled_state : ViewerState :=
  { initial_state with
      needs_render := 0
      progressive_phase := 1
      dragging := 1
      drag_start_x := 10
      drag_start_y := 10
      drag_start_cx := -1 / 2
      drag_start_cy := 0 }

/-- A sample state at the upper zoom bound, where a further zoom-in notch is
clamped. -/
def deep_zoom_state : ViewerState :=
  { initial_state with zoom := 100000000000000 }

/-- A sample burst of input: nine presses of the increase-iterations key, a
zoom-out notch, a click-drag-release and a decrease-iterations key. -/
def sample_events : List SDL_Event :=
  List.replicate 9 (SDL_Event.keydown SDLK_PLUS) ++
    [SDL_Event.mousewheel (-1) 400 300,
     SDL_Event.mousebuttondown SDL_BUTTON_LEFT 10 10,
     SDL_Event.mousemotion 50 60,
     SDL_Event.mousebuttonup SDL_BUTTON_LEFT 50 60,
     SDL_Event.keydown SDLK_MINUS]

/-- A sample Julia-mode state: the initial state after a right click at pixel
`(100, 100)`, later panned and zoomed by hand. -/
def julia_state : ViewerState :=
  { initial_state with
      julia_mode := 1
      jr := -5 / 2
      ji := -4 / 3
      center_x := 3 / 4
      center_y := 1 / 8
      zoom := 5
      max_iter := 1024
      needs_render := 0
      progressive_phase := 1 }

/-- Sample kernels that disagree: the scalar kernels store 1 in every column,
the NEON kernels store 2. -/
def disagreeing_kernels : Kernels :=
  { mandelbrot_row_scalar := fun _ _ _ _ _ _ => 1
    mandelbrot_row_neon := fun _ _ _ _ _ _ => 2
    julia_row_scalar := fun _ _ _ _ _ _ _ _ => 1
    julia_row_neon := fun _ _ _ _ _ _ _ _ => 2 }

/-- Sample kernels that agree: all four store 2 in every column. -/
def agreeing_kernels : Kernels :=
  { mandelbrot_row_scalar := fun _ _ _ _ _ _ => 2
    mandelbrot_row_neon := fun _ _ _ _ _ _ => 2
    julia_row_scalar := fun _ _ _ _ _ _ _ _ => 2
    julia_row_neon := fun _ _ _ _ _ _ _ _ => 2 }

/-- A sample colour kernel: black for `max_iter`, a grey level otherwise. -/
def sample_colormap (counts : List Nat) (max_iter : Nat) : List Nat :=
  counts.flatMap (fun n => if n = max_iter then [0, 0, 0] else [n % 256, n % 256, n % 256])

/-- A sample environment: clock readings 0 s, 2 s and 2.5 s, a zeroed buffer,
allocation and file open succeed. -/
def sample_env : BatchEnv :=
  { t0 := { tv_sec := 0, tv_nsec := 0 }
    t1 := { tv_sec := 2, tv_nsec := 0 }
    t2 := { tv_sec := 2, tv_nsec := 500000000 }
    iters0 := fun _ => 0
    malloc_ok := true
    fopen_ok := true }

/-- A sample benchmark run: the defaults of the batch driver on a 4x2 raster
with the benchmark flag set. -/
def bench_cfg : Config :=
  { width := 4, height := 2
    center_x := -1 / 2, center_y := 0
    zoom := 1, max_iter := 256
    julia_mode := 0, jr := 0, ji := 0
    output := "fractal.ppm"
    benchmark := 1 }

/-- The iteration-count buffer of a raster as the scalar kernels of `K` fill
it: the pixels of `render_rows` with `use_neon = 0`, in row-major order. -/
def scalar_buffer (K : Kernels) (env : BatchEnv) (cfg : Config) : List Nat :=
  (List.range (cfg.width * cfg.height)).map
    (render_rows K env.iters0 cfg (main_view_bounds cfg).x_min (main_view_bounds cfg).x_step
      (main_view_bounds cfg).y_min (main_view_bounds cfg).y_step 0)

/-- The iteration-count buffer of a raster as the NEON kernels of `K` fill it:
the pixels of `render_rows` with `use_neon = 1`, in row-major order. -/
def neon_buffer (K : Kernels) (env : BatchEnv) (cfg : Config) : List Nat :=
  (List.range (cfg.width * cfg.height)).map
    (render_rows K env.iters0 cfg (main_view_bounds cfg).x_min (main_view_bounds cfg).x_step
      (main_view_bounds cfg).y_min (main_view_bounds cfg).y_step 1)

/-! ## Row kernels -/

/-- Modelled from the spec: the row kernels are assembly routines that are not
among the sources.  Their contract counts the steps of the recurrence
`z ← z² + c` taken before `|z|² > 4`, bounded by `max_iter`.  `escape_loop`
runs at most `fuel` further steps from `z = (zr, zi)` with `n` steps already
counted. -/
def escape_loop (cr ci : ℚ) : Nat → ℚ → ℚ → Nat → Nat
  | 0, _, _, n => n
  | fuel + 1, zr, zi, n =>
    if zr * zr + zi * zi > 4 then n
    else escape_loop cr ci fuel (zr * zr - zi * zi + cr) (2 * zr * zi + ci) (n + 1)

/-- Modelled from the spec: the escape-time count of the recurrence
`z ← z² + c` started at `z₀ = (zr, zi)`: the number of steps before
`|z|² > 4`, or `max_iter` if that never happens within `max_iter` steps. -/
def escape_count (zr zi cr ci : ℚ) (max_iter : Nat) : Nat :=
  escape_loop cr ci max_iter zr zi 0

/-- Modelled from the spec: the Mandelbrot row kernel (the assembly is not
among the sources).  Column `c` is the point `(x_min + c * x_step, y)`, used as
the constant of the recurrence, with `z₀ = 0`. -/
def mandelbrot_row (_width : Nat) (x_min x_step y : ℚ) (max_iter : Nat) (c : Nat) : Nat :=
  escape_count 0 0 (x_min + (c : ℚ) * x_step) y max_iter

/-- Modelled from the spec: the Julia row kernel (the assembly is not among the
sources).  Column `c` is the point `(x_min + c * x_step, y)`, used as `z₀`, with
the constant `(jr, ji)`. -/
def julia_row (_width : Nat) (x_min x_step y jr ji : ℚ) (max_iter : Nat) (c : Nat) : Nat :=
  escape_count (x_min + (c : ℚ) * x_step) y jr ji max_iter

/-- Modelled from the spec: a kernel set that satisfies the kernel contract;
the reference and the accelerated kernels agree exactly. -/
def spec_kernels : Kernels :=
  { mandelbrot_row_scalar := mandelbrot_row
    mandelbrot_row_neon := mandelbrot_row
    julia_row_scalar := julia_row
    julia_row_neon := julia_row }

/-- The batch scenario of the specification: a 100x100 raster of the default
Mandelbrot view. -/
def scenario_cfg : Config :=
  { width := 100, height := 100
    center_x := -1 / 2, center_y := 0
    zoom := 1, max_iter := 256
    julia_mode := 0, jr := 0, ji := 0
    output := "fractal.ppm"
    benchmark := 0 }

/-- The clamp of the specification: `clamp(z, 0.1, 1e14)`. -/
def zoom_clamp (z : ℚ) : ℚ :=
  max (1 / 10) (min z 100000000000000)

/-- An option whose value respects the View bounds: an `-i` value in
`[16, 65536]`, a `-z` value in `[0.1, 1e14]`; the other options are not
restricted. -/
def cli_in_range : CliOption → Prop
  | CliOption.i v => 16 ≤ v ∧ v ≤ 65536
  | CliOption.z v => (1 / 10 : ℚ) ≤ v ∧ v ≤ 100000000000000
  | _ => True

/-- A sample command line: `-w 640 -h 480 -i 512 -z 2.5 -j -0.7,0.27015`. -/
def sample_cli : List CliOption :=
  [CliOption.w 640, CliOption.h 480, CliOption.i 512, CliOption.z (5 / 2),
   CliOption.j (some (-7 / 10, 27015 / 100000))]

/-- The state that `parse_args` builds from `sample_cli`. -/
def sample_cli_state : ViewerState :=
  { initial_state with
      win_w := 640
      win_h := 480
      max_iter := 512
      zoom := 5 / 2
      julia_mode := 1
      jr := -7 / 10
      ji := 27015 / 100000
      center_x := 0 }

/-! ## Theorems -/

/-- C1: render-step transitions.  From `needs_render = 1`, phase 0 the step
renders the coarse target and leaves `needs_render = 1`, phase 1; from
`needs_render = 1`, phase 1 it renders the full target and leaves
`needs_render = 0`; from `needs_render = 0` it renders nothing and changes
nothing.  A step never makes more than one render call. -/
theorem render_step_transitions (s : ViewerState) (active_tex : Texture) (ms : ℚ) :
    (s.needs_render = 1 → s.progressive_phase = 0 →
      (render_step s active_tex ms).2.2
          = [{ target := Texture.tex_coarse, rw := s.win_w / 4, rh := s.win_h / 4 }] ∧
      (render_step s active_tex ms).1.needs_render = 1 ∧
      (render_step s active_tex ms).1.progressive_phase = 1) ∧
    (s.needs_render = 1 → s.progressive_phase = 1 →
      (render_step s active_tex ms).2.2
          = [{ target := Texture.tex_full, rw := s.win_w, rh := s.win_h }] ∧
      (render_step s active_tex ms).1.needs_render = 0) ∧
    (s.needs_render = 0 → render_step s active_tex ms = (s, active_tex, [])) ∧
    (render_step s active_tex ms).2.2.length ≤ 1 := by
  refine ⟨?_, ?_, ?_, ?_⟩
  · intro hn hp
    simp [render_step, hn, hp]
  · intro hn hp
    simp [render_step, hn, hp]
  · intro hn
    simp [render_step, hn]
  · unfold render_step
    split_ifs <;> simp

/-- Witness for C1: the three transitions at the initial state, at the state
after its coarse render, and at the clean state after its full render. -/
theorem render_step_transitions_witness :
    ((render_step initial_state Texture.tex_full 3).2.2
        = [{ target := Texture.tex_coarse, rw := 200, rh := 150 }] ∧
      (render_step initial_state Texture.tex_full 3).1.needs_render = 1 ∧
      (render_step initial_state Texture.tex_full 3).1.progressive_phase = 1) ∧
    ((render_step { initial_state with progressive_phase := 1 } Texture.tex_coarse 7).2.2
        = [{ target := Texture.tex_full, rw := 800, rh := 600 }] ∧
      (render_step { initial_state with progressive_phase := 1 }
        Texture.tex_coarse 7).1.needs_render = 0) ∧
    render_step { initial_state with needs_render := 0 } Texture.tex_full 5
      = ({ initial_state with needs_render := 0 }, Texture.tex_full, []) :=
  ⟨(render_step_transitions initial_state Texture.tex_full 3).1 (by decide) (by decide),
   (render_step_transitions { initial_state with progressive_phase := 1 }
      Texture.tex_coarse 7).2.1 (by decide) (by decide),
   (render_step_transitions { initial_state with needs_render := 0 }
      Texture.tex_full 5).2.2.1 (by decide)⟩

/-! ### Dirtying mutations -/

theorem mark_dirty_dirty_coarse (s : ViewerState) : dirty_coarse (mark_dirty s) :=
  ⟨rfl, rfl⟩

theorem handle_key_view_change (s : ViewerState) (key running : Int)
    (h : view_fields (handle_key s key running).1 ≠ view_fields s) :
    dirty_coarse (handle_key s key running).1 := by
  unfold handle_key at h ⊢
  split_ifs at h ⊢
  all_goals first
    | exact mark_dirty_dirty_coarse _
    | exact absurd rfl h

theorem handle_mousedown_view_change (s : ViewerState) (button : Nat) (x y : Int)
    (h : view_fields (handle_mousedown s button x y) ≠ view_fields s) :
    dirty_coarse (handle_mousedown s button x y) := by
  unfold handle_mousedown at h ⊢
  split_ifs at h ⊢
  all_goals first
    | exact mark_dirty_dirty_coarse _
    | exact absurd rfl h

theorem handle_mouseup_view_fields (s : ViewerState) (button : Nat) :
    view_fields (handle_mouseup s button) = view_fields s := by
  unfold handle_mouseup
  split_ifs <;> rfl

theorem handle_mousemotion_view_change (s : ViewerState) (x y : Int)
    (h : view_fields (handle_mousemotion s x y) ≠ view_fields s) :
    dirty_coarse (handle_mousemotion s x y) := by
  unfold handle_mousemotion at h ⊢
  split_ifs at h ⊢
  all_goals first
    | exact mark_dirty_dirty_coarse _
    | exact absurd rfl h

theorem handle_wheel_dirty_coarse (s : ViewerState) (ev_y mx my : Int) :
    dirty_coarse (handle_wheel s ev_y mx my) :=
  mark_dirty_dirty_coarse _

/-- C2: whenever one of the five input handlers changes a View field (center,
zoom, `max_iter`, `julia_mode`, `jr`, `ji`), the state it returns is
`Dirty(Coarse)`, whatever the phase was before.  `handle_mouseup` never changes
a View field, and `handle_wheel` always returns `Dirty(Coarse)`. -/
theorem view_change_marks_dirty (s : ViewerState) :
    (∀ key running : Int,
      view_fields (handle_key s key running).1 ≠ view_fields s →
        dirty_coarse (handle_key s key running).1) ∧
    (∀ (button : Nat) (x y : Int),
      view_fields (handle_mousedown s button x y) ≠ view_fields s →
        dirty_coarse (handle_mousedown s button x y)) ∧
    (∀ button : Nat, view_fields (handle_mouseup s button) = view_fields s) ∧
    (∀ x y : Int,
      view_fields (handle_mousemotion s x y) ≠ view_fields s →
        dirty_coarse (handle_mousemotion s x y)) ∧
    (∀ ev_y mx my : Int,
      view_fields (handle_wheel s ev_y mx my) ≠ view_fields s →
        dirty_coarse (handle_wheel s ev_y mx my)) :=
  ⟨handle_key_view_change s,
   handle_mousedown_view_change s,
   handle_mouseup_view_fields s,
   handle_mousemotion_view_change s,
   fun ev_y mx my _ => handle_wheel_dirty_coarse s ev_y mx my⟩

/-- Witness for C2: from a clean state in the full phase, the iteration key, a
right click, a drag motion and a wheel notch each change the View and each
leave the state `Dirty(Coarse)`. -/
theorem view_change_marks_dirty_witness :
    dirty_coarse (handle_key settled_state SDLK_PLUS 1).1 ∧
    dirty_coarse (handle_mousedown settled_state SDL_BUTTON_RIGHT 100 100) ∧
    dirty_coarse (handle_mousemotion settled_state 110 10) ∧
    dirty_coarse (handle_wheel settled_state 1 100 100) :=
  ⟨(view_change_marks_dirty settled_state).1 SDLK_PLUS 1
     (by norm_num [view_fields, handle_key, mark_dirty, settled_state, initial_state,
        SDLK_PLUS, SDLK_ESCAPE, SDLK_q, SDLK_SPACE]),
   (view_change_marks_dirty settled_state).2.1 SDL_BUTTON_RIGHT 100 100
     (by norm_num [view_fields, handle_mousedown, mark_dirty, settled_state, initial_state,
        SDL_BUTTON_RIGHT, SDL_BUTTON_LEFT]),
   (view_change_marks_dirty settled_state).2.2.2.1 110 10
     (by norm_num [view_fields, handle_mousemotion, mark_dirty, settled_state, initial_state]),
   (view_change_marks_dirty settled_state).2.2.2.2 1 100 100
     (by norm_num [view_fields, handle_wheel, mark_dirty, settled_state, initial_state])⟩

/-! ### Zoom anchor -/

/-- C3, as amended: zoom anchor in exact arithmetic.  For a non-zero zoom and a
window of positive size, the plane point that `screen_to_complex` assigns to
the cursor pixel `(mx, my)` after `handle_wheel` is exactly the point it
assigned before, for every scroll amount and also when the new zoom was
clamped. -/
theorem wheel_zoom_anchor (s : ViewerState) (ev_y mx my : Int)
    (_hz : s.zoom ≠ 0) (_hw : 0 < s.win_w) (_hh : 0 < s.win_h) :
    screen_to_complex (handle_wheel s ev_y mx my) mx my = screen_to_complex s mx my := by
  simp only [handle_wheel, screen_to_complex, mark_dirty]
  refine Prod.ext ?_ ?_
  · simp only
    ring
  · simp only
    ring

/-- Witness for C3 as amended: one zoom-in notch at pixel `(100, 100)` of the
initial view, and one at the upper zoom bound, where the zoom stays clamped at
`1e14`. -/
theorem wheel_zoom_anchor_witness :
    (initial_state.zoom ≠ 0 ∧ 0 < initial_state.win_w ∧ 0 < initial_state.win_h ∧
      screen_to_complex (handle_wheel initial_state 1 100 100) 100 100
        = screen_to_complex initial_state 100 100) ∧
    (deep_zoom_state.zoom ≠ 0 ∧ 0 < deep_zoom_state.win_w ∧ 0 < deep_zoom_state.win_h ∧
      screen_to_complex (handle_wheel deep_zoom_state 1 100 100) 100 100
        = screen_to_complex deep_zoom_state 100 100) :=
  ⟨⟨by norm_num [initial_state], by decide, by decide,
     wheel_zoom_anchor initial_state 1 100 100 (by norm_num [initial_state])
       (by decide) (by decide)⟩,
   ⟨by norm_num [deep_zoom_state, initial_state], by decide, by decide,
     wheel_zoom_anchor deep_zoom_state 1 100 100
       (by norm_num [deep_zoom_state, initial_state]) (by decide) (by decide)⟩⟩

/-- Counterexample to C3 as stated: in the 800x600 default view with zoom
`0.0`, the point under the cursor at pixel `(100, 100)` is NaN before a wheel
notch and NaN after it (the new zoom is `0.1`, the new center NaN), so the two
points do not compare equal. -/
theorem wheel_zoom_anchor_lost_at_zero_zoom :
    0 < zero_zoom_state_f64.win_w ∧ 0 < zero_zoom_state_f64.win_h ∧
    screen_to_complex_f64 zero_zoom_state_f64 100 100 = (F64.nan, F64.nan) ∧
    (handle_wheel_f64 zero_zoom_state_f64 1 100 100).center_x = F64.nan ∧
    screen_to_complex_f64 (handle_wheel_f64 zero_zoom_state_f64 1 100 100) 100 100
      = (F64.nan, F64.nan) ∧
    F64.eq (screen_to_complex_f64 (handle_wheel_f64 zero_zoom_state_f64 1 100 100) 100 100).1
      (screen_to_complex_f64 zero_zoom_state_f64 100 100).1 = false := by
  decide!

/-! ### Bound clamping -/

theorem handle_key_bounds (s : ViewerState) (key running : Int) (h : bounds_ok s) :
    bounds_ok (handle_key s key running).1 := by
  obtain ⟨h1, h2, h3, h4⟩ := h
  have hm : s.max_iter * 2 % 2 ^ 32 = s.max_iter * 2 := Nat.mod_eq_of_lt (by omega)
  unfold handle_key
  simp only [hm]
  split_ifs
  all_goals
    refine ⟨?_, ?_, ?_, ?_⟩ <;> simp only [mark_dirty] <;>
      first
        | assumption
        | omega
        | norm_num

theorem handle_mousedown_bounds (s : ViewerState) (button : Nat) (x y : Int)
    (h : bounds_ok s) : bounds_ok (handle_mousedown s button x y) := by
  obtain ⟨h1, h2, h3, h4⟩ := h
  unfold handle_mousedown
  split_ifs
  · exact ⟨h1, h2, h3, h4⟩
  · refine ⟨h1, h2, ?_, ?_⟩ <;> norm_num [mark_dirty]
  · exact ⟨h1, h2, h3, h4⟩

theorem handle_mouseup_bounds (s : ViewerState) (button : Nat) (h : bounds_ok s) :
    bounds_ok (handle_mouseup s button) := by
  unfold handle_mouseup
  split_ifs
  · exact h
  · exact h

theorem handle_mousemotion_bounds (s : ViewerState) (x y : Int) (h : bounds_ok s) :
    bounds_ok (handle_mousemotion s x y) := by
  unfold handle_mousemotion
  split_ifs
  · exact h
  · exact h

/-- The two clamping tests of `handle_wheel`, applied in the order of the code,
put any value into `[0.1, 1e14]`. -/
theorem zoom_clamp_range (z : ℚ) :
    (1 / 10 : ℚ) ≤
        (if (if z < 1 / 10 then 1 / 10 else z) > 100000000000000 then 100000000000000
          else (if z < 1 / 10 then 1 / 10 else z)) ∧
      (if (if z < 1 / 10 then 1 / 10 else z) > 100000000000000 then 100000000000000
          else (if z < 1 / 10 then 1 / 10 else z)) ≤ 100000000000000 := by
  constructor
  · split_ifs <;> linarith
  · split_ifs <;> linarith

/-- The zoom that `handle_wheel` stores lies in `[0.1, 1e14]` whatever the zoom
was before. -/
theorem handle_wheel_zoom_range (s : ViewerState) (ev_y mx my : Int) :
    (1 / 10 : ℚ) ≤ (handle_wheel s ev_y mx my).zoom ∧
      (handle_wheel s ev_y mx my).zoom ≤ 100000000000000 := by
  simp only [handle_wheel, mark_dirty]
  exact zoom_clamp_range _

theorem handle_wheel_bounds (s : ViewerState) (ev_y mx my : Int) (h : bounds_ok s) :
    bounds_ok (handle_wheel s ev_y mx my) :=
  ⟨h.1, h.2.1, (handle_wheel_zoom_range s ev_y mx my).1,
    (handle_wheel_zoom_range s ev_y mx my).2⟩

theorem dispatch_bounds (st : ViewerState × Int) (ev : SDL_Event) (h : bounds_ok st.1) :
    bounds_ok (dispatch st ev).1 := by
  cases ev with
  | quit => exact h
  | keydown sym => exact handle_key_bounds st.1 sym st.2 h
  | mousebuttondown button x y => exact handle_mousedown_bounds st.1 button x y h
  | mousebuttonup button x y => exact handle_mouseup_bounds st.1 button h
  | mousemotion x y => exact handle_mousemotion_bounds st.1 x y h
  | mousewheel y mx my => exact handle_wheel_bounds st.1 y mx my h
  | other => exact h

theorem poll_events_bounds (evs : List SDL_Event) :
    ∀ st : ViewerState × Int, bounds_ok st.1 → bounds_ok (poll_events st evs).1 := by
  induction evs with
  | nil => intro st h; exact h
  | cons ev rest ih =>
    intro st h
    exact ih (dispatch st ev) (dispatch_bounds st ev h)

/-- C4: bound clamping is preserved.  From any state with
`16 ≤ max_iter ≤ 65536` and `0.1 ≤ zoom ≤ 1e14`, handling any finite sequence
of input events (keys, buttons, motion, wheel) leads to a state with the same
bounds; `max_iter` is doubled modulo `2 ^ 32`. -/
theorem bounds_preserved (s : ViewerState) (running : Int) (evs : List SDL_Event)
    (h : bounds_ok s) : bounds_ok (poll_events (s, running) evs).1 :=
  poll_events_bounds evs (s, running) h

/-- Witness for C4: the initial state satisfies the bounds, and so does the
state after a burst of key, wheel and drag events. -/
theorem bounds_preserved_witness :
    bounds_ok initial_state ∧ bounds_ok (poll_events (initial_state, 1) sample_events).1 :=
  ⟨by norm_num [bounds_ok, initial_state],
   bounds_preserved initial_state 1 sample_events (by norm_num [bounds_ok, initial_state])⟩

/-! ### Mode switches and reset -/

/-- C5: right click in Mandelbrot mode.  With `julia_mode = 0`, a right-button
press at pixel `(x, y)` stores in `(jr, ji)` the plane point of that pixel
under the view before the click, sets `julia_mode = 1`, center `(0, 0)` and
zoom `1.0`, keeps `max_iter`, and leaves the state `Dirty(Coarse)`. -/
theorem right_click_to_julia (s : ViewerState) (x y : Int) (h : s.julia_mode = 0) :
    ((handle_mousedown s SDL_BUTTON_RIGHT x y).jr,
        (handle_mousedown s SDL_BUTTON_RIGHT x y).ji) = screen_to_complex s x y ∧
    (handle_mousedown s SDL_BUTTON_RIGHT x y).julia_mode = 1 ∧
    (handle_mousedown s SDL_BUTTON_RIGHT x y).center_x = 0 ∧
    (handle_mousedown s SDL_BUTTON_RIGHT x y).center_y = 0 ∧
    (handle_mousedown s SDL_BUTTON_RIGHT x y).zoom = 1 ∧
    (handle_mousedown s SDL_BUTTON_RIGHT x y).max_iter = s.max_iter ∧
    dirty_coarse (handle_mousedown s SDL_BUTTON_RIGHT x y) := by
  have hb : ¬ SDL_BUTTON_RIGHT = SDL_BUTTON_LEFT := by decide
  simp only [handle_mousedown, hb, h, if_false, and_self, if_true, mark_dirty, dirty_coarse]

/-- Witness for C5: a right click at pixel `(100, 100)` of the initial view
captures the plane point `(-5/2, -4/3)`. -/
theorem right_click_to_julia_witness :
    initial_state.julia_mode = 0 ∧
    ((handle_mousedown initial_state SDL_BUTTON_RIGHT 100 100).jr,
        (handle_mousedown initial_state SDL_BUTTON_RIGHT 100 100).ji)
      = screen_to_complex initial_state 100 100 ∧
    (handle_mousedown initial_state SDL_BUTTON_RIGHT 100 100).julia_mode = 1 :=
  ⟨rfl, (right_click_to_julia initial_state 100 100 rfl).1,
    (right_click_to_julia initial_state 100 100 rfl).2.1⟩

/-! ### Coordinate mapper -/

/-- The batch driver computes its view bounds by the same formulas as
`compute_view`, for a viewer state with the same center and zoom. -/
theorem main_view_bounds_eq_compute_view (cfg : Config) (s : ViewerState)
    (hx : s.center_x = cfg.center_x) (hy : s.center_y = cfg.center_y)
    (hz : s.zoom = cfg.zoom) :
    main_view_bounds cfg = compute_view s cfg.width cfg.height := by
  simp only [main_view_bounds, compute_view, hx, hy, hz]

/-- C8, as amended: pan.  While dragging (window of positive size, non-zero
zoom) a motion event at `(x, y)` sets the center to a value that, in exact
arithmetic, is the drag baseline minus the pixel displacement times the step
sizes of `compute_view` at window resolution, and changes no other View field.  With `dragging = 0`, and in particular after a
left-button release, a motion event returns the state unchanged. -/
theorem pan_motion (s : ViewerState) (x y : Int) :
    (s.dragging = 1 → 0 < s.win_w → 0 < s.win_h → s.zoom ≠ 0 →
      (handle_mousemotion s x y).center_x
          = s.drag_start_cx
              - ((x - s.drag_start_x : Int) : ℚ) * (compute_view s s.win_w s.win_h).x_step ∧
      (handle_mousemotion s x y).center_y
          = s.drag_start_cy
              - ((y - s.drag_start_y : Int) : ℚ) * (compute_view s s.win_w s.win_h).y_step ∧
      (handle_mousemotion s x y).zoom = s.zoom ∧
      (handle_mousemotion s x y).max_iter = s.max_iter ∧
      (handle_mousemotion s x y).julia_mode = s.julia_mode ∧
      (handle_mousemotion s x y).jr = s.jr ∧
      (handle_mousemotion s x y).ji = s.ji) ∧
    (s.dragging = 0 → handle_mousemotion s x y = s) ∧
    handle_mousemotion (handle_mouseup s SDL_BUTTON_LEFT) x y
        = handle_mouseup s SDL_BUTTON_LEFT := by
  refine ⟨?_, ?_, ?_⟩
  · intro hd _ _ _
    have hd0 : ¬ s.dragging = 0 := by rw [hd]; decide
    refine ⟨?_, ?_, ?_, ?_, ?_, ?_, ?_⟩ <;>
      simp only [handle_mousemotion, hd0, if_false, mark_dirty, compute_view] <;>
      ring
  · intro hd
    simp only [handle_mousemotion, hd, if_true]
  · simp only [handle_mouseup, handle_mousemotion, if_true]

/-- Witness for C8 as amended: a motion to pixel `(110, 10)` during the drag of
`settled_state`, and the same motion on the initial state, which is not
dragging. -/
theorem pan_motion_witness :
    ((handle_mousemotion settled_state 110 10).center_x
          = settled_state.drag_start_cx
              - ((110 - settled_state.drag_start_x : Int) : ℚ)
                  * (compute_view settled_state settled_state.win_w settled_state.win_h).x_step ∧
      (handle_mousemotion settled_state 110 10).zoom = settled_state.zoom) ∧
    handle_mousemotion initial_state 110 10 = initial_state :=
  ⟨⟨((pan_motion settled_state 110 10).1 (by decide) (by decide) (by decide)
        (by norm_num [settled_state, initial_state])).1,
    ((pan_motion settled_state 110 10).1 (by decide) (by decide) (by decide)
        (by norm_num [settled_state, initial_state])).2.2.1⟩,
   (pan_motion initial_state 110 10).2.1 (by decide)⟩

/-! ### Keys -/

/-- C9: reset.  The `R` key sets the center to `(0, 0)` when `julia_mode` is
set and to `(-0.5, 0)` otherwise, sets zoom `1.0` and `max_iter = 256`, keeps
`julia_mode`, `jr` and `ji`, and leaves the state `Dirty(Coarse)`. -/
theorem reset_key (s : ViewerState) (running : Int) :
    (s.julia_mode ≠ 0 → (handle_key s SDLK_r running).1.center_x = 0) ∧
    (s.julia_mode = 0 → (handle_key s SDLK_r running).1.center_x = -1 / 2) ∧
    (handle_key s SDLK_r running).1.center_y = 0 ∧
    (handle_key s SDLK_r running).1.zoom = 1 ∧
    (handle_key s SDLK_r running).1.max_iter = 256 ∧
    (handle_key s SDLK_r running).1.julia_mode = s.julia_mode ∧
    (handle_key s SDLK_r running).1.jr = s.jr ∧
    (handle_key s SDLK_r running).1.ji = s.ji ∧
    dirty_coarse (handle_key s SDLK_r running).1 := by
  have h1 : ¬ (SDLK_r = SDLK_ESCAPE ∨ SDLK_r = SDLK_q) := by decide
  have h2 : ¬ SDLK_r = SDLK_SPACE := by decide
  have h3 : ¬ (SDLK_r = SDLK_EQUALS ∨ SDLK_r = SDLK_PLUS ∨ SDLK_r = SDLK_KP_PLUS) := by decide
  have h4 : ¬ (SDLK_r = SDLK_MINUS ∨ SDLK_r = SDLK_KP_MINUS) := by decide
  have hk : handle_key s SDLK_r running
      = (mark_dirty { s with
            center_x := if s.julia_mode ≠ 0 then 0 else -1 / 2
            center_y := 0
            zoom := 1
            max_iter := 256 }, running) := by
    simp only [handle_key, h1, h2, h3, h4, if_false, if_true]
  rw [hk]
  refine ⟨?_, ?_, rfl, rfl, rfl, rfl, rfl, rfl, rfl, rfl⟩
  · intro hj
    simp only [mark_dirty, hj, ne_eq, not_false_eq_true, if_true]
  · intro hj
    simp only [mark_dirty, hj, ne_eq, not_true_eq_false, if_false]

/-- Witness for C9: reset in a Julia-mode state and in the Mandelbrot-mode
initial state. -/
theorem reset_key_witness :
    (handle_key julia_state SDLK_r 1).1.center_x = 0 ∧
    (handle_key initial_state SDLK_r 1).1.center_x = -1 / 2 :=
  ⟨(reset_key julia_state 1).1 (by decide), (reset_key initial_state 1).2.1 (by decide)⟩

/-- C10: back to Mandelbrot.  The space key sets `julia_mode = 0`, center
`(-0.5, 0)` and zoom `1.0`, keeps `max_iter`, `jr` and `ji`, and leaves the
state `Dirty(Coarse)`. -/
theorem space_key (s : ViewerState) (running : Int) :
    (handle_key s SDLK_SPACE running).1.julia_mode = 0 ∧
    (handle_key s SDLK_SPACE running).1.center_x = -1 / 2 ∧
    (handle_key s SDLK_SPACE running).1.center_y = 0 ∧
    (handle_key s SDLK_SPACE running).1.zoom = 1 ∧
    (handle_key s SDLK_SPACE running).1.max_iter = s.max_iter ∧
    (handle_key s SDLK_SPACE running).1.jr = s.jr ∧
    (handle_key s SDLK_SPACE running).1.ji = s.ji ∧
    dirty_coarse (handle_key s SDLK_SPACE running).1 := by
  have h1 : ¬ (SDLK_SPACE = SDLK_ESCAPE ∨ SDLK_SPACE = SDLK_q) := by decide
  have hk : handle_key s SDLK_SPACE running
      = (mark_dirty { s with julia_mode := 0, center_x := -1 / 2, center_y := 0, zoom := 1 },
          running) := by
    simp only [handle_key, h1, if_false, if_true]
  rw [hk]
  exact ⟨rfl, rfl, rfl, rfl, rfl, rfl, rfl, rfl, rfl⟩

/-! ### Batch driver: rows and benchmark -/

/-- After the row loop has run over `h` rows of width `w`, the entry at offset
`r * w + c` holds the count of row `r`, column `c`, whatever the buffer held
before. -/
theorem foldl_write_row_get (f : Nat → Nat → Nat) (w : Nat) :
    ∀ (h : Nat) (iters : Nat → Nat) (r c : Nat), r < h → c < w →
      ((List.range h).foldl
          (fun (buf : Nat → Nat) (row : Nat) => write_row buf (row * w) w (f row)) iters)
        (r * w + c) = f r c := by
  intro h
  induction h with
  | zero => intro iters r c hr; omega
  | succ n ih =>
    intro iters r c hr hc
    rw [List.range_succ, List.foldl_append]
    simp only [List.foldl_cons, List.foldl_nil, write_row]
    rcases Nat.lt_succ_iff_lt_or_eq.mp hr with hlt | heq
    · have hle : (r + 1) * w ≤ n * w := Nat.mul_le_mul_right w hlt
      have hnot : ¬ (n * w ≤ r * w + c ∧ r * w + c < n * w + w) := by
        intro hcon
        have : r * w + c < (r + 1) * w := by rw [Nat.add_mul, Nat.one_mul]; omega
        omega
      rw [if_neg hnot]
      exact ih iters r c hlt hc
    · subst heq
      have hyes : r * w ≤ r * w + c ∧ r * w + c < r * w + w := by omega
      rw [if_pos hyes, Nat.add_sub_cancel_left]

/-- The entry of `render_rows` at offset `r * width + c`, for a row and a
column inside the raster, is the count the chosen kernel returns for column `c`
of the row with plane coordinate `y_min + r * y_step`. -/
theorem render_rows_get (K : Kernels) (iters : Nat → Nat) (cfg : Config)
    (x_min x_step y_min y_step : ℚ) (use_neon : Int) (r c : Nat)
    (hr : r < cfg.height) (hc : c < cfg.width) :
    render_rows K iters cfg x_min x_step y_min y_step use_neon (r * cfg.width + c)
      = row_counts K cfg x_min x_step (y_min + (r : ℚ) * y_step) use_neon c := by
  unfold render_rows
  exact foldl_write_row_get
    (fun row => row_counts K cfg x_min x_step (y_min + (row : ℚ) * y_step) use_neon)
    cfg.width cfg.height iters r c hr hc

/-- Inside the raster the result of `render_rows` does not depend on what the
buffer held before. -/
theorem render_rows_overwrites (K : Kernels) (iters iters' : Nat → Nat) (cfg : Config)
    (x_min x_step y_min y_step : ℚ) (use_neon : Int) (i : Nat)
    (hi : i < cfg.width * cfg.height) :
    render_rows K iters cfg x_min x_step y_min y_step use_neon i
      = render_rows K iters' cfg x_min x_step y_min y_step use_neon i := by
  have hw : 0 < cfg.width := by
    rcases Nat.eq_zero_or_pos cfg.width with h0 | hpos
    · rw [h0, Nat.zero_mul] at hi; omega
    · exact hpos
  have hr : i / cfg.width < cfg.height := by
    rw [Nat.div_lt_iff_lt_mul hw, Nat.mul_comm]; exact hi
  have hc : i % cfg.width < cfg.width := Nat.mod_lt _ hw
  have hsplit : i = i / cfg.width * cfg.width + i % cfg.width := by
    rw [Nat.mul_comm]; exact (Nat.div_add_mod i cfg.width).symm
  rw [hsplit, render_rows_get K iters cfg _ _ _ _ _ _ _ hr hc,
    render_rows_get K iters' cfg _ _ _ _ _ _ _ hr hc]

/-- With `use_neon = 1` the kernel call of a row only involves the NEON
kernels. -/
theorem row_counts_neon (K K' : Kernels) (cfg : Config) (x_min x_step y : ℚ)
    (hm : K.mandelbrot_row_neon = K'.mandelbrot_row_neon)
    (hj : K.julia_row_neon = K'.julia_row_neon) :
    row_counts K cfg x_min x_step y 1 = row_counts K' cfg x_min x_step y 1 := by
  have h1 : (1 : Int) ≠ 0 := by decide
  simp only [row_counts, h1, ne_eq, not_false_eq_true, if_true, hm, hj]

/-- Inside the raster a NEON pass gives the same buffer for any two kernel sets
with the same NEON kernels, whatever the buffer held before. -/
theorem render_rows_neon_pass (K K' : Kernels) (iters iters' : Nat → Nat) (cfg : Config)
    (x_min x_step y_min y_step : ℚ)
    (hm : K.mandelbrot_row_neon = K'.mandelbrot_row_neon)
    (hj : K.julia_row_neon = K'.julia_row_neon)
    (i : Nat) (hi : i < cfg.width * cfg.height) :
    render_rows K iters cfg x_min x_step y_min y_step 1 i
      = render_rows K' iters' cfg x_min x_step y_min y_step 1 i := by
  have hw : 0 < cfg.width := by
    rcases Nat.eq_zero_or_pos cfg.width with h0 | hpos
    · rw [h0, Nat.zero_mul] at hi; omega
    · exact hpos
  have hr : i / cfg.width < cfg.height := by
    rw [Nat.div_lt_iff_lt_mul hw, Nat.mul_comm]; exact hi
  have hc : i % cfg.width < cfg.width := Nat.mod_lt _ hw
  have hsplit : i = i / cfg.width * cfg.width + i % cfg.width := by
    rw [Nat.mul_comm]; exact (Nat.div_add_mod i cfg.width).symm
  rw [hsplit, render_rows_get K iters cfg _ _ _ _ _ _ _ hr hc,
    render_rows_get K' iters' cfg _ _ _ _ _ _ _ hr hc,
    row_counts_neon K K' cfg _ _ _ hm hj]

/-- The counts handed to the colour kernel after a NEON pass are the same for
any two kernel sets with the same NEON kernels. -/
theorem neon_pass_counts (K K' : Kernels) (iters iters' : Nat → Nat) (cfg : Config)
    (x_min x_step y_min y_step : ℚ)
    (hm : K.mandelbrot_row_neon = K'.mandelbrot_row_neon)
    (hj : K.julia_row_neon = K'.julia_row_neon) :
    (List.range (cfg.width * cfg.height % 2 ^ 32)).map
        (render_rows K iters cfg x_min x_step y_min y_step 1)
      = (List.range (cfg.width * cfg.height % 2 ^ 32)).map
        (render_rows K' iters' cfg x_min x_step y_min y_step 1) := by
  apply List.map_congr_left
  intro i hi
  have hlt : i < cfg.width * cfg.height :=
    lt_of_lt_of_le (List.mem_range.mp hi) (Nat.mod_le _ _)
  exact render_rows_neon_pass K K' iters iters' cfg _ _ _ _ hm hj i hlt

/-- C11, as amended: with the benchmark flag set the driver runs the scalar
pass and then the NEON pass into the same buffer and prints only the timings;
no comparison is made.  Printed output, image file and exit status are the same
for any two kernel sets with the same NEON kernels, whatever their scalar
kernels store. -/
theorem benchmark_ignores_scalar_kernels (K K' : Kernels)
    (colormap_apply : List Nat → Nat → List Nat) (env : BatchEnv) (cfg : Config)
    (hb : cfg.benchmark ≠ 0)
    (hm : K.mandelbrot_row_neon = K'.mandelbrot_row_neon)
    (hj : K.julia_row_neon = K'.julia_row_neon) :
    main_render K colormap_apply env cfg = main_render K' colormap_apply env cfg := by
  simp only [main_render, hb, ne_eq, not_false_eq_true, if_true]
  rw [neon_pass_counts K K' _
    (render_rows K' env.iters0 cfg (main_view_bounds cfg).x_min (main_view_bounds cfg).x_step
      (main_view_bounds cfg).y_min (main_view_bounds cfg).y_step 0) cfg _ _ _ _ hm hj]

/-- Witness for C11 as amended: a benchmark run with kernels that disagree
gives the same result as one with kernels that agree. -/
theorem benchmark_ignores_scalar_kernels_witness :
    bench_cfg.benchmark ≠ 0 ∧
    main_render disagreeing_kernels sample_colormap sample_env bench_cfg
      = main_render agreeing_kernels sample_colormap sample_env bench_cfg :=
  ⟨by decide,
   benchmark_ignores_scalar_kernels disagreeing_kernels agreeing_kernels sample_colormap
     sample_env bench_cfg (by decide) rfl rfl⟩

/-- Counterexample to C11 as stated: on a 4x2 benchmark run the scalar and NEON
buffers of `disagreeing_kernels` differ and those of `agreeing_kernels` agree,
yet the two runs print the same and end with the same exit status. -/
theorem benchmark_disagreement_not_surfaced :
    scalar_buffer disagreeing_kernels sample_env bench_cfg
      ≠ neon_buffer disagreeing_kernels sample_env bench_cfg ∧
    scalar_buffer agreeing_kernels sample_env bench_cfg
      = neon_buffer agreeing_kernels sample_env bench_cfg ∧
    (main_render disagreeing_kernels sample_colormap sample_env bench_cfg).printed
      = (main_render agreeing_kernels sample_colormap sample_env bench_cfg).printed ∧
    (main_render disagreeing_kernels sample_colormap sample_env bench_cfg).exit_status
      = (main_render agreeing_kernels sample_colormap sample_env bench_cfg).exit_status := by
  refine ⟨by decide, by decide, rfl, rfl⟩

/-! ### Raster centre -/

/-- For the constant `(-1/2, 0)` the recurrence keeps a real `z` with
`-1/2 ≤ z ≤ 0` in that interval, so it never escapes and every step of the
fuel is counted. -/
theorem escape_loop_centre (fuel : Nat) :
    ∀ (zr : ℚ) (n : Nat), -1 / 2 ≤ zr → zr ≤ 0 →
      escape_loop (-1 / 2) 0 fuel zr 0 n = n + fuel := by
  induction fuel with
  | zero => intro zr n _ _; rfl
  | succ k ih =>
    intro zr n hlo hhi
    have hsq : zr * zr ≤ 1 / 4 := by nlinarith
    have hsq0 : 0 ≤ zr * zr := mul_self_nonneg zr
    have hno : ¬ (zr * zr + 0 * 0 > 4) := by
      rw [not_lt]; linarith
    rw [escape_loop, if_neg hno]
    have hzi : 2 * zr * 0 + (0 : ℚ) = 0 := by ring
    rw [hzi, ih (zr * zr - 0 * 0 + -1 / 2) (n + 1) (by linarith) (by linarith)]
    omega

/-- The point `(-1/2, 0)` has escape-time count `max_iter`. -/
theorem escape_count_centre (max_iter : Nat) :
    escape_count 0 0 (-1 / 2) 0 max_iter = max_iter := by
  unfold escape_count
  rw [escape_loop_centre max_iter 0 0 (by norm_num) (le_refl 0)]
  omega

/-- The plane point of the centre pixel of an even raster is the view centre. -/
theorem main_view_bounds_centre (cfg : Config)
    (hw2 : cfg.width % 2 = 0) (hh2 : cfg.height % 2 = 0)
    (hw : 0 < cfg.width) (hh : 0 < cfg.height) :
    (main_view_bounds cfg).x_min
        + ((cfg.width / 2 : Nat) : ℚ) * (main_view_bounds cfg).x_step = cfg.center_x ∧
    (main_view_bounds cfg).y_min
        + ((cfg.height / 2 : Nat) : ℚ) * (main_view_bounds cfg).y_step = cfg.center_y := by
  have hW : (cfg.width : ℚ) ≠ 0 := by exact_mod_cast hw.ne'
  have hH : (cfg.height : ℚ) ≠ 0 := by exact_mod_cast hh.ne'
  have cw : ((cfg.width / 2 : Nat) : ℚ) = (cfg.width : ℚ) / 2 := by
    rw [Nat.cast_div (Nat.dvd_of_mod_eq_zero hw2) (by norm_num)]; norm_num
  have chh : ((cfg.height / 2 : Nat) : ℚ) = (cfg.height : ℚ) / 2 := by
    rw [Nat.cast_div (Nat.dvd_of_mod_eq_zero hh2) (by norm_num)]; norm_num
  have key : ∀ a d : ℚ, d ≠ 0 → d / 2 * (2 * a / d) = a := by
    intro a d hd
    field_simp
    ring
  simp only [main_view_bounds, cw, chh]
  constructor
  · rw [key _ _ hW]; ring
  · rw [key _ _ hH]; ring

/-- In Mandelbrot mode the kernel call of `spec_kernels` evaluates column `c`
of a row by the escape-time count of the point `(x_min + c * x_step, y)`. -/
theorem row_counts_spec_mandelbrot (cfg : Config) (x_min x_step y : ℚ) (use_neon : Int)
    (c : Nat) (hj : cfg.julia_mode = 0) :
    row_counts spec_kernels cfg x_min x_step y use_neon c
      = escape_count 0 0 (x_min + (c : ℚ) * x_step) y cfg.max_iter := by
  simp only [row_counts, hj, ne_eq, not_true_eq_false, if_false, spec_kernels, ite_self,
    mandelbrot_row]

/-- C12, as amended: raster centre in exact arithmetic.  In the batch renderer,
for an even width and an even height, both positive, and a non-zero zoom, the
plane point of pixel `(width / 2, height / 2)`, evaluated without rounding, is
exactly `(center_x, center_y)`, and the buffer
entry at offset `(height / 2) * width + width / 2` is the count of the kernel
for that row and column.  With kernels that follow the escape-time recurrence,
in Mandelbrot mode with center `(-0.5, 0)`, that entry is `max_iter`. -/
theorem raster_centre_is_view_centre (cfg : Config)
    (hw2 : cfg.width % 2 = 0) (hh2 : cfg.height % 2 = 0)
    (hw : 0 < cfg.width) (hh : 0 < cfg.height) (_hz : cfg.zoom ≠ 0) :
    ((main_view_bounds cfg).x_min
          + ((cfg.width / 2 : Nat) : ℚ) * (main_view_bounds cfg).x_step,
      (main_view_bounds cfg).y_min
          + ((cfg.height / 2 : Nat) : ℚ) * (main_view_bounds cfg).y_step)
        = (cfg.center_x, cfg.center_y) ∧
    (∀ (K : Kernels) (iters : Nat → Nat) (use_neon : Int),
      render_rows K iters cfg (main_view_bounds cfg).x_min (main_view_bounds cfg).x_step
          (main_view_bounds cfg).y_min (main_view_bounds cfg).y_step use_neon
          (cfg.height / 2 * cfg.width + cfg.width / 2)
        = row_counts K cfg (main_view_bounds cfg).x_min (main_view_bounds cfg).x_step
            cfg.center_y use_neon (cfg.width / 2)) ∧
    (cfg.julia_mode = 0 → cfg.center_x = -1 / 2 → cfg.center_y = 0 →
      ∀ (iters : Nat → Nat) (use_neon : Int),
        render_rows spec_kernels iters cfg (main_view_bounds cfg).x_min
            (main_view_bounds cfg).x_step (main_view_bounds cfg).y_min
            (main_view_bounds cfg).y_step use_neon
            (cfg.height / 2 * cfg.width + cfg.width / 2)
          = cfg.max_iter) := by
  obtain ⟨hx, hy⟩ := main_view_bounds_centre cfg hw2 hh2 hw hh
  have hr : cfg.height / 2 < cfg.height := Nat.div_lt_self hh (by decide)
  have hc : cfg.width / 2 < cfg.width := Nat.div_lt_self hw (by decide)
  have hget : ∀ (K : Kernels) (iters : Nat → Nat) (use_neon : Int),
      render_rows K iters cfg (main_view_bounds cfg).x_min (main_view_bounds cfg).x_step
          (main_view_bounds cfg).y_min (main_view_bounds cfg).y_step use_neon
          (cfg.height / 2 * cfg.width + cfg.width / 2)
        = row_counts K cfg (main_view_bounds cfg).x_min (main_view_bounds cfg).x_step
            cfg.center_y use_neon (cfg.width / 2) := by
    intro K iters use_neon
    rw [render_rows_get K iters cfg _ _ _ _ use_neon _ _ hr hc, hy]
  refine ⟨by rw [hx, hy], hget, ?_⟩
  intro hj hcx hcy iters use_neon
  rw [hget, row_counts_spec_mandelbrot cfg _ _ _ _ _ hj, hx, hcx, hcy]
  exact escape_count_centre cfg.max_iter

/-- Witness for C12 as amended: the 100x100 scenario.  Pixel `(50, 50)` is evaluated at
`(-1/2, 0)` and its entry, at offset 5050, is 256. -/
theorem raster_centre_is_view_centre_witness :
    ((main_view_bounds scenario_cfg).x_min + (50 : ℚ) * (main_view_bounds scenario_cfg).x_step,
      (main_view_bounds scenario_cfg).y_min + (50 : ℚ) * (main_view_bounds scenario_cfg).y_step)
        = (-1 / 2, 0) ∧
    render_rows spec_kernels sample_env.iters0 scenario_cfg
        (main_view_bounds scenario_cfg).x_min (main_view_bounds scenario_cfg).x_step
        (main_view_bounds scenario_cfg).y_min (main_view_bounds scenario_cfg).y_step 1 5050
      = 256 :=
  ⟨by
    have h := (raster_centre_is_view_centre scenario_cfg (by decide) (by decide) (by decide)
      (by decide) (by norm_num [scenario_cfg])).1
    norm_num [scenario_cfg] at h ⊢
    exact h,
   (raster_centre_is_view_centre scenario_cfg (by decide) (by decide) (by decide)
      (by decide) (by norm_num [scenario_cfg])).2.2 rfl rfl rfl sample_env.iters0 1⟩

/-! ### Wheel zoom factor -/

/-- The two clamping tests of `handle_wheel`, in the order of the code, compute
`clamp(z, 0.1, 1e14)`. -/
theorem zoom_clamp_eq (z : ℚ) :
    (if (if z < 1 / 10 then 1 / 10 else z) > 100000000000000 then 100000000000000
      else (if z < 1 / 10 then 1 / 10 else z)) = zoom_clamp z := by
  unfold zoom_clamp
  by_cases h1 : z < 1 / 10
  · have h2 : ¬ ((1 / 10 : ℚ) > 100000000000000) := by norm_num
    rw [if_pos h1, if_neg h2, min_eq_left (by linarith), max_eq_left (le_of_lt h1)]
  · rw [if_neg h1]
    by_cases h3 : z > 100000000000000
    · rw [if_pos h3, min_eq_right (le_of_lt h3), max_eq_right (by norm_num)]
    · rw [if_neg h3, min_eq_left (not_lt.mp h3), max_eq_right (not_lt.mp h1)]

/-- C13, as amended: `handle_wheel` applies the factor once per event.  For a
scroll amount `ev_y > 0` (away) the new zoom is `clamp(zoom * 1.3, 0.1, 1e14)`,
for `ev_y < 0` (toward) it is `clamp(zoom / 1.3, 0.1, 1e14)`, whatever the
number of notches the event reports. -/
theorem wheel_factor_once_per_event (s : ViewerState) (ev_y mx my : Int) :
    (0 < ev_y →
      (handle_wheel s ev_y mx my).zoom = zoom_clamp (s.zoom * (13 / 10))) ∧
    (ev_y < 0 →
      (handle_wheel s ev_y mx my).zoom = zoom_clamp (s.zoom / (13 / 10))) := by
  constructor
  · intro h
    have hpos : ev_y > 0 := h
    simp only [handle_wheel, mark_dirty, hpos, if_true]
    exact zoom_clamp_eq _
  · intro h
    have hneg : ¬ ev_y > 0 := by omega
    simp only [handle_wheel, mark_dirty, hneg, if_false]
    rw [zoom_clamp_eq, mul_one_div]

/-- Witness for C13 as amended: events of two notches away and three notches
toward on the initial view change the zoom by a single factor. -/
theorem wheel_factor_once_per_event_witness :
    (handle_wheel initial_state 2 400 300).zoom = zoom_clamp (initial_state.zoom * (13 / 10)) ∧
    (handle_wheel initial_state (-3) 400 300).zoom
      = zoom_clamp (initial_state.zoom / (13 / 10)) :=
  ⟨(wheel_factor_once_per_event initial_state 2 400 300).1 (by decide),
   (wheel_factor_once_per_event initial_state (-3) 400 300).2 (by decide)⟩

/-- Counterexample to C13 as stated: for an event of two notches away on the
initial view the new zoom is `1.3`, not `clamp(1.0 * 1.3 ^ 2) = 1.69`. -/
theorem wheel_two_notches_single_factor :
    (handle_wheel initial_state 2 400 300).zoom = 13 / 10 ∧
    zoom_clamp (initial_state.zoom * (13 / 10) ^ 2) = 169 / 100 ∧
    (handle_wheel initial_state 2 400 300).zoom
      ≠ zoom_clamp (initial_state.zoom * (13 / 10) ^ 2) := by
  have h1 : (handle_wheel initial_state 2 400 300).zoom = 13 / 10 := by
    norm_num [handle_wheel, mark_dirty, initial_state]
  have h2 : zoom_clamp (initial_state.zoom * (13 / 10) ^ 2) = 169 / 100 := by
    norm_num [zoom_clamp, initial_state]
  refine ⟨h1, h2, ?_⟩
  rw [h1, h2]
  norm_num

/-! ### Reachable states -/

/-- The option loop of `parse_args` keeps the View bounds when every `-i` and
`-z` value respects them. -/
theorem parse_args_loop_bounds (opts : List CliOption) :
    ∀ (s : ViewerState) (cxs : Int) (r : ViewerState × Int),
      (∀ o ∈ opts, cli_in_range o) → bounds_ok s →
      parse_args_loop opts s cxs = some r → bounds_ok r.1 := by
  induction opts with
  | nil =>
    intro s cxs r _ hb hp
    simp only [parse_args_loop, Option.some.injEq] at hp
    rw [← hp]; exact hb
  | cons o rest ih =>
    intro s cxs r hr hb hp
    have hrest : ∀ o' ∈ rest, cli_in_range o' := fun o' ho' =>
      hr o' (List.mem_cons_of_mem _ ho')
    have ho : cli_in_range o := hr o (List.mem_cons_self _ _)
    obtain ⟨h1, h2, h3, h4⟩ := hb
    cases o with
    | w v =>
      simp only [parse_args_loop] at hp
      refine ih _ _ r hrest ?_ hp
      exact ⟨h1, h2, h3, h4⟩
    | h v =>
      simp only [parse_args_loop] at hp
      refine ih _ _ r hrest ?_ hp
      exact ⟨h1, h2, h3, h4⟩
    | j parsed =>
      cases parsed with
      | none => simp only [parse_args_loop] at hp; exact absurd hp (by simp)
      | some q =>
        simp only [parse_args_loop] at hp
        refine ih _ _ r hrest ?_ hp
        exact ⟨h1, h2, h3, h4⟩
    | i v =>
      obtain ⟨hv1, hv2⟩ := ho
      simp only [parse_args_loop] at hp
      refine ih _ _ r hrest ?_ hp
      refine ⟨?_, ?_, h3, h4⟩
      · show 16 ≤ (v % 2 ^ 32).toNat
        omega
      · show (v % 2 ^ 32).toNat ≤ 65536
        omega
    | x v =>
      simp only [parse_args_loop] at hp
      refine ih _ _ r hrest ?_ hp
      exact ⟨h1, h2, h3, h4⟩
    | y v =>
      simp only [parse_args_loop] at hp
      refine ih _ _ r hrest ?_ hp
      exact ⟨h1, h2, h3, h4⟩
    | z v =>
      obtain ⟨hv1, hv2⟩ := ho
      simp only [parse_args_loop] at hp
      refine ih _ _ r hrest ?_ hp
      exact ⟨h1, h2, hv1, hv2⟩
    | unknown => simp only [parse_args_loop] at hp; exact absurd hp (by simp)

/-- `parse_args` keeps the View bounds when every `-i` and `-z` value respects
them. -/
theorem parse_args_bounds (opts : List CliOption) (s0 s : ViewerState)
    (hr : ∀ o ∈ opts, cli_in_range o) (hb : bounds_ok s0)
    (hp : parse_args opts s0 = some s) : bounds_ok s := by
  unfold parse_args at hp
  cases hl : parse_args_loop opts s0 0 with
  | none => rw [hl] at hp; exact absurd hp (by simp)
  | some r =>
    rw [hl] at hp
    have hbr := parse_args_loop_bounds opts s0 0 r hr hb hl
    simp only [Option.some.injEq] at hp
    rw [← hp]
    split_ifs
    · exact hbr
    · exact hbr

/-- The initial state of the viewer satisfies the View bounds. -/
theorem initial_state_bounds : bounds_ok initial_state := by
  norm_num [bounds_ok, initial_state]

/-- C14, as amended: every state reached from the default state through a
command line that `parse_args` accepts and whose `-i` values lie in
`[16, 65536]` and `-z` values in `[0.1, 1e14]` (in particular one with neither
option), followed by any finite sequence of input events, satisfies
`0.1 ≤ zoom ≤ 1e14` and `16 ≤ max_iter ≤ 65536`. -/
theorem reachable_view_bounds (opts : List CliOption) (s : ViewerState) (running : Int)
    (evs : List SDL_Event)
    (hp : parse_args opts initial_state = some s)
    (hr : ∀ o ∈ opts, cli_in_range o) :
    bounds_ok (poll_events (s, running) evs).1 :=
  poll_events_bounds evs (s, running)
    (parse_args_bounds opts initial_state s hr initial_state_bounds hp)

/-- Witness for C14 as amended: the command line `sample_cli` is accepted, its
`-i` and `-z` values are in range, and the bounds hold after a burst of
events. -/
theorem reachable_view_bounds_witness :
    parse_args sample_cli initial_state = some sample_cli_state ∧
    bounds_ok (poll_events (sample_cli_state, 1) sample_events).1 :=
  ⟨rfl,
   reachable_view_bounds sample_cli sample_cli_state 1 sample_events rfl
     (by
       intro o ho
       simp only [sample_cli, List.mem_cons, List.mem_singleton, List.not_mem_nil,
         or_false] at ho
       rcases ho with h | h | h | h | h <;> subst h <;> simp only [cli_in_range] <;>
         norm_num)⟩

/-- Counterexample to C14 as stated: `parse_args` accepts `-i 5` and `-z 1e20`
and stores the values unclamped, so the state the viewer starts from violates
the bounds before any input event. -/
theorem cli_values_unclamped :
    (parse_args [CliOption.i 5] initial_state = some { initial_state with max_iter := 5 } ∧
      ¬ bounds_ok (poll_events ({ initial_state with max_iter := 5 }, 1) []).1) ∧
    (parse_args [CliOption.z 100000000000000000000] initial_state
        = some { initial_state with zoom := 100000000000000000000 } ∧
      ¬ bounds_ok
        (poll_events ({ initial_state with zoom := 100000000000000000000 }, 1) []).1) := by
  refine ⟨⟨rfl, ?_⟩, ⟨rfl, ?_⟩⟩
  · intro h
    have h16 := h.1
    simp only [poll_events, List.foldl_nil, initial_state] at h16
    omega
  · intro h
    have hz := h.2.2.2
    simp only [poll_events, List.foldl_nil, initial_state] at hz
    norm_num at hz

/-! ### Coarse and full targets -/

/-- C15: coarse and full renders sample the same plane region.  For a non-zero
zoom and a window whose width and height are positive multiples of 4,
`compute_view` for the coarse target `(win_w / 4, win_h / 4)` gives the same
`x_min` and `y_min` as for the full target and steps 4 times as large, so the
plane point of coarse pixel `(c, r)` is that of full pixel `(4c, 4r)`. -/
theorem coarse_full_same_region (s : ViewerState)
    (_hz : s.zoom ≠ 0) (hw : 0 < s.win_w) (hh : 0 < s.win_h)
    (hw4 : s.win_w % 4 = 0) (hh4 : s.win_h % 4 = 0) :
    (compute_view s (s.win_w / 4) (s.win_h / 4)).x_min
        = (compute_view s s.win_w s.win_h).x_min ∧
    (compute_view s (s.win_w / 4) (s.win_h / 4)).y_min
        = (compute_view s s.win_w s.win_h).y_min ∧
    (compute_view s (s.win_w / 4) (s.win_h / 4)).x_step
        = 4 * (compute_view s s.win_w s.win_h).x_step ∧
    (compute_view s (s.win_w / 4) (s.win_h / 4)).y_step
        = 4 * (compute_view s s.win_w s.win_h).y_step ∧
    ∀ c r : Nat,
      ((compute_view s (s.win_w / 4) (s.win_h / 4)).x_min
            + (c : ℚ) * (compute_view s (s.win_w / 4) (s.win_h / 4)).x_step,
        (compute_view s (s.win_w / 4) (s.win_h / 4)).y_min
            + (r : ℚ) * (compute_view s (s.win_w / 4) (s.win_h / 4)).y_step)
        = ((compute_view s s.win_w s.win_h).x_min
            + ((4 * c : Nat) : ℚ) * (compute_view s s.win_w s.win_h).x_step,
          (compute_view s s.win_w s.win_h).y_min
            + ((4 * r : Nat) : ℚ) * (compute_view s s.win_w s.win_h).y_step) := by
  have hW : (s.win_w : ℚ) ≠ 0 := by exact_mod_cast hw.ne'
  have hH : (s.win_h : ℚ) ≠ 0 := by exact_mod_cast hh.ne'
  have cw : ((s.win_w / 4 : Nat) : ℚ) = (s.win_w : ℚ) / 4 := by
    rw [Nat.cast_div (Nat.dvd_of_mod_eq_zero hw4) (by norm_num)]; norm_num
  have chh : ((s.win_h / 4 : Nat) : ℚ) = (s.win_h : ℚ) / 4 := by
    rw [Nat.cast_div (Nat.dvd_of_mod_eq_zero hh4) (by norm_num)]; norm_num
  have hasp : (s.win_w : ℚ) / 4 / ((s.win_h : ℚ) / 4) = (s.win_w : ℚ) / (s.win_h : ℚ) := by
    field_simp
  have hxs : 2 * (2 / s.zoom * ((s.win_w : ℚ) / (s.win_h : ℚ))) / ((s.win_w : ℚ) / 4)
      = 4 * (2 * (2 / s.zoom * ((s.win_w : ℚ) / (s.win_h : ℚ))) / (s.win_w : ℚ)) := by
    rw [div_div_eq_mul_div]; ring
  have hys : 2 * (2 / s.zoom) / ((s.win_h : ℚ) / 4)
      = 4 * (2 * (2 / s.zoom) / (s.win_h : ℚ)) := by
    rw [div_div_eq_mul_div]; ring
  simp only [compute_view, cw, chh, hasp, hxs, hys, Nat.cast_mul, Nat.cast_ofNat]
  refine ⟨trivial, trivial, trivial, trivial, ?_⟩
  intro c r
  refine Prod.ext ?_ ?_
  · simp only
    ring
  · simp only
    ring

/-- Witness for C15: the initial 800x600 window and its 200x150 coarse target;
coarse pixel `(3, 5)` and full pixel `(12, 20)` are the same plane point. -/
theorem coarse_full_same_region_witness :
    (compute_view initial_state 200 150).x_min = (compute_view initial_state 800 600).x_min ∧
    (compute_view initial_state 200 150).x_step
      = 4 * (compute_view initial_state 800 600).x_step ∧
    ((compute_view initial_state 200 150).x_min
          + ((3 : Nat) : ℚ) * (compute_view initial_state 200 150).x_step,
      (compute_view initial_state 200 150).y_min
          + ((5 : Nat) : ℚ) * (compute_view initial_state 200 150).y_step)
      = ((compute_view initial_state 800 600).x_min
          + ((4 * 3 : Nat) : ℚ) * (compute_view initial_state 800 600).x_step,
        (compute_view initial_state 800 600).y_min
          + ((4 * 5 : Nat) : ℚ) * (compute_view initial_state 800 600).y_step) :=
  ⟨(coarse_full_same_region initial_state (by norm_num [initial_state]) (by decide) (by decide)
      (by decide) (by decide)).1,
   (coarse_full_same_region initial_state (by norm_num [initial_state]) (by decide) (by decide)
      (by decide) (by decide)).2.2.1,
   (coarse_full_same_region initial_state (by norm_num [initial_state]) (by decide) (by decide)
      (by decide) (by decide)).2.2.2.2 3 5⟩

/-! ### Binary64 arithmetic -/

/-- Counterexample to C8 as stated: during the drag of `settled_state_f64` a
motion to column 3 stores `center_x = -0x1.d0369d0369d03p-2`, while the drag
baseline minus the displacement times `x_step` is `-0x1.d0369d0369d04p-2`. -/
theorem pan_differs_on_doubles :
    settled_state_f64.dragging = 1 ∧
    (handle_mousemotion_f64 settled_state_f64 3 10).center_x
      = F64.fin (-8166527324298499 / 18014398509481984) ∧
    F64.sub settled_state_f64.drag_start_cx
        (F64.mul (F64.of_int (3 - settled_state_f64.drag_start_x))
          (compute_view_f64 settled_state_f64 800 600).x_step)
      = F64.fin (-2041631831074625 / 4503599627370496) ∧
    F64.eq (handle_mousemotion_f64 settled_state_f64 3 10).center_x
      (F64.sub settled_state_f64.drag_start_cx
        (F64.mul (F64.of_int (3 - settled_state_f64.drag_start_x))
          (compute_view_f64 settled_state_f64 800 600).x_step)) = false := by
  decide!

/-- Counterexample to C12 as stated: for a 100x100 raster at zoom `1.0` with
`center_y` the double nearest to `0.1`, row 50 is evaluated at
`0x1.99999999999a0p-4 = 0.10000000000000009`, not at `center_y`. -/
theorem raster_centre_differs_on_doubles :
    F64.round (1 / 10) = F64.fin (3602879701896397 / 36028797018963968) ∧
    F64.add
        (main_view_bounds_f64 100 100 (F64.fin (-1 / 2)) (F64.round (1 / 10)) (F64.fin 1)).y_min
        (F64.mul (F64.of_nat 50)
          (main_view_bounds_f64 100 100 (F64.fin (-1 / 2)) (F64.round (1 / 10))
            (F64.fin 1)).y_step)
      = F64.fin (225179981368525 / 2251799813685248) ∧
    F64.eq
      (F64.add
        (main_view_bounds_f64 100 100 (F64.fin (-1 / 2)) (F64.round (1 / 10)) (F64.fin 1)).y_min
        (F64.mul (F64.of_nat 50)
          (main_view_bounds_f64 100 100 (F64.fin (-1 / 2)) (F64.round (1 / 10))
            (F64.fin 1)).y_step))
      (F64.round (1 / 10)) = false := by
  decide!

/-- In the 100x100 scenario (center `(-0.5, 0)`, zoom `1.0`) pixel `(50, 50)` is
evaluated at exactly `(-0.5, 0)` in binary64 arithmetic as well. -/
theorem scenario_centre_on_doubles :
    F64.add (main_view_bounds_f64 100 100 (F64.fin (-1 / 2)) (F64.fin 0) (F64.fin 1)).x_min
        (F64.mul (F64.of_nat 50)
          (main_view_bounds_f64 100 100 (F64.fin (-1 / 2)) (F64.fin 0) (F64.fin 1)).x_step)
      = F64.fin (-1 / 2) ∧
    F64.add (main_view_bounds_f64 100 100 (F64.fin (-1 / 2)) (F64.fin 0) (F64.fin 1)).y_min
        (F64.mul (F64.of_nat 50)
          (main_view_bounds_f64 100 100 (F64.fin (-1 / 2)) (F64.fin 0) (F64.fin 1)).y_step)
      = F64.fin 0 := by
  decide!

end Fractal
